import Mathlib

/-!
Verification development for the HTML_Audio_Fluid_Sim repository.

The JavaScript sources are shallowly embedded as Lean definitions:
JavaScript numbers are idealised as real numbers (`ℝ`); where only
rational/NaN arithmetic matters (the audio-mean path) a small `JSNum`
type with an explicit NaN element is used.  `Float32Array` buffers are
modelled as `List ℝ`, written with `List.set` at the same indices the
source writes.  `Math.random()` is modelled by an explicit stream
`rnd : ℕ → ℝ` of the successive values returned by the calls, in the
order the source makes them.
-/

set_option maxHeartbeats 1600000
set_option linter.unusedVariables false

noncomputable section

/-- A particle, from `FluidSimulation.initializeParticles`
(src/js/core/FluidSimulation.js): fields `x, y, vx, vy, life, color,
size`.  The `color` field is an HSL string in the source whose only
varying datum is the hue, so it is modelled by the hue value. -/
structure Particle where
  x : ℝ
  y : ℝ
  vx : ℝ
  vy : ℝ
  life : ℝ
  color : ℝ
  size : ℝ

instance : Inhabited Particle := ⟨⟨0, 0, 0, 0, 0, 0, 0⟩⟩

@[ext] theorem Particle.fieldwise_eq {p q : Particle}
    (hx : p.x = q.x) (hy : p.y = q.y) (hvx : p.vx = q.vx) (hvy : p.vy = q.vy)
    (hl : p.life = q.life) (hc : p.color = q.color) (hs : p.size = q.size) :
    p = q := by
  cases p; cases q; simp_all

/-- JavaScript `Math.atan2 y x`, i.e. the argument of the complex number
`x + i y` (range `(-π, π]`, `atan2 0 0 = 0`, matching JS). -/
def jsAtan2 (y x : ℝ) : ℝ := Complex.arg ⟨x, y⟩

/-- Source `FluidSimulation.applyParticleForces` (the local force engine).
Scenes are the raw strings of the source's `switch (this.currentScene)`;
any string other than `"vortex"`, `"wave"`, `"spiral"` takes the default
path (no scene force).  `now` stands for the `Date.now()` reading used by
the wave phase.  Returns the `(fx, fy)` pair the source stores into
`this.forces[index*2]` and `this.forces[index*2+1]`. -/
def applyParticleForces (scene : String) (width height audioInfluence viscosity now : ℝ)
    (p : Particle) : ℝ × ℝ :=
  let sceneForce : ℝ × ℝ :=
    if scene = "vortex" then
      let centerX := width / 2
      let centerY := height / 2
      let dx := p.x - centerX
      let dy := p.y - centerY
      let distance := Real.sqrt (dx * dx + dy * dy)
      if distance > 0 then
        let strength := 100 / (distance + 1)
        (-dy * strength * audioInfluence, dx * strength * audioInfluence)
      else (0, 0)
    else if scene = "wave" then
      let waveForce := Real.sin (p.x * 0.01 + now * 0.001) * 50
      (0, waveForce * audioInfluence)
    else if scene = "spiral" then
      let spiralAngle := jsAtan2 (p.y - height / 2) (p.x - width / 2)
      let spiralRadius := Real.sqrt ((p.x - width / 2) ^ 2 + (p.y - height / 2) ^ 2)
      (Real.cos (spiralAngle + spiralRadius * 0.01) * 30 * audioInfluence,
       Real.sin (spiralAngle + spiralRadius * 0.01) * 30 * audioInfluence)
    else (0, 0)
  (sceneForce.1 - p.vx * viscosity, sceneForce.2 - p.vy * viscosity)

/-- Per-particle force of the worker script's `calculateForcesBatch`
(src/js/workers/WorkerPool.js).  The worker's `switch (scene)` has only
the `'vortex'` and `'wave'` cases: every other scene (including
`'spiral'`) leaves `fx = fy = 0`, and no viscosity term is applied. -/
def calculateForcesBatchElem (scene : String) (audioInfluence width height now : ℝ)
    (p : Particle) : ℝ × ℝ :=
  if scene = "vortex" then
    let centerX := width / 2
    let centerY := height / 2
    let dx := p.x - centerX
    let dy := p.y - centerY
    let distance := Real.sqrt (dx * dx + dy * dy)
    if distance > 0 then
      let strength := 100 / (distance + 1)
      (-dy * strength * audioInfluence, dx * strength * audioInfluence)
    else (0, 0)
  else if scene = "wave" then
    let waveForce := Real.sin (p.x * 0.01 + now * 0.001) * 50
    (0, waveForce * audioInfluence)
  else (0, 0)

/-- C1 counterexample: in the default scene with the source's default
viscosity `0.0001`, a particle with velocity `(1, 0)` gets force
`(-0.0001, 0)` from the local engine (viscosity drag) but `(0, 0)` from
the worker path, which has no viscosity term; so the worker-pool force
does not equal the local-engine force. -/
theorem workerForce_ne_localForce :
    calculateForcesBatchElem "default" 0 100 100 0 ⟨0, 0, 1, 0, 1, 0, 1⟩ ≠
      applyParticleForces "default" 100 100 0 0.0001 0 ⟨0, 0, 1, 0, 1, 0, 1⟩ := by
  intro h
  have hfst := congrArg Prod.fst h
  norm_num [applyParticleForces, calculateForcesBatchElem] at hfst

/-- C1 (amended): the worker path computes only the scene force and only
for the `vortex` and `wave` scenes.  For every scene other than
`"spiral"` the worker force equals the local force with the viscosity
drag `(-vx·viscosity, -vy·viscosity)` added back; for `"spiral"` the
worker returns `(0, 0)` (the worker's `switch` has no spiral case) while
the local engine computes the spiral force minus viscosity drag. -/
theorem workerForce_eq_localForce_sans_viscosity
    (scene : String) (w h aI visc now : ℝ) (p : Particle) :
    calculateForcesBatchElem scene aI w h now p =
      if scene = "spiral" then (0, 0)
      else ((applyParticleForces scene w h aI visc now p).1 + p.vx * visc,
            (applyParticleForces scene w h aI visc now p).2 + p.vy * visc) := by
  by_cases hv : scene = "vortex"
  · subst hv
    simp only [applyParticleForces, calculateForcesBatchElem,
      if_pos rfl, if_neg (by decide : ¬ ("vortex" : String) = "spiral")]
    split_ifs <;> simp [Prod.ext_iff]
  · by_cases hw : scene = "wave"
    · subst hw
      simp only [applyParticleForces, calculateForcesBatchElem,
        if_neg (by decide : ¬ ("wave" : String) = "vortex"),
        if_neg (by decide : ¬ ("wave" : String) = "spiral"), if_pos rfl]
      simp only [Prod.ext_iff]
      constructor <;> ring
    · by_cases hs : scene = "spiral"
      · subst hs
        simp only [calculateForcesBatchElem, if_neg hv, if_neg hw,
          eq_self_iff_true, if_true]
      · simp only [applyParticleForces, calculateForcesBatchElem,
          if_neg hv, if_neg hw, if_neg hs]
        simp [Prod.ext_iff]

/-! ### Audio influence and JavaScript NaN semantics (claim C2) -/

/-- A JavaScript number restricted to the values the audio-mean path can
produce: an exact rational, NaN, or a signed infinity. -/
inductive JSNum where
  | num (q : ℚ)
  | nan
  | posInf
  | negInf
  deriving DecidableEq

/-- JavaScript floating-point division on `JSNum` (IEEE-754 semantics as
JS specifies them, with rationals in place of finite doubles and the
sign of zero not tracked): `0/0` is NaN, `x/0` for `x ≠ 0` is a signed
infinity, NaN propagates. -/
def JSNum.div : JSNum → JSNum → JSNum
  | num a, num b =>
      if b = 0 then (if a = 0 then nan else if 0 < a then posInf else negInf)
      else num (a / b)
  | nan, _ => nan
  | num _, nan => nan
  | posInf, nan => nan
  | negInf, nan => nan
  | posInf, posInf => nan
  | posInf, negInf => nan
  | negInf, posInf => nan
  | negInf, negInf => nan
  | posInf, num b => if 0 ≤ b then posInf else negInf
  | negInf, num b => if 0 ≤ b then negInf else posInf
  | num _, posInf => num 0
  | num _, negInf => num 0

/-- Source `FluidSimulation.updateAudioInfluence`: sums the samples in a loop
and stores `(sum / audioData.length) / 255`. -/
def updateAudioInfluenceJS (audioData : List ℚ) : JSNum :=
  let sum : ℚ := audioData.sum
  ((JSNum.num sum).div (JSNum.num audioData.length)).div (JSNum.num 255)

/-- The effect of `FluidSimulation.update` on `this.audioInfluence`:
the source guards with `if (audioData)`, which is false only for
`null`/`undefined` (modelled by `none`); an empty array is truthy in
JavaScript, so `some []` still reaches `updateAudioInfluence`. -/
def updateAudioStep (prev : JSNum) (audioData : Option (List ℚ)) : JSNum :=
  match audioData with
  | some l => updateAudioInfluenceJS l
  | none => prev

/-- C2: calling `update` with an empty audio array does not leave
`audioInfluence` unchanged — the empty array passes the `if (audioData)`
truthiness test, the loop computes `sum = 0`, and `(0 / 0) / 255`
evaluates to NaN, which is stored.  (Passing `null` does leave the value
unchanged, third conjunct.)  This exhibits the divergence between the
code and the claim's required "treat as no audio update". -/
theorem update_empty_audio_sets_nan :
    updateAudioStep (JSNum.num 0) (some []) = JSNum.nan ∧
    updateAudioStep (JSNum.num 0) (some []) ≠ JSNum.num 0 ∧
    updateAudioStep (JSNum.num 0) none = JSNum.num 0 := by
  refine ⟨by decide, by decide, rfl⟩

/-! ### Boundary handling (claim C7) -/

/-- Source `FluidSimulation.handleBoundaries`: clamp each coordinate to the
wall it crossed and reflect the corresponding velocity component with
damping factor 0.8.  The `x` pair and the `y` pair are each an
`if / else if` chain in the source. -/
def handleBoundaries (width height : ℝ) (p : Particle) : Particle :=
  let damping : ℝ := 0.8
  let p1 :=
    if p.x < 0 then { p with x := 0, vx := -p.vx * damping }
    else if p.x > width then { p with x := width, vx := -p.vx * damping }
    else p
  if p1.y < 0 then { p1 with y := 0, vy := -p1.vy * damping }
  else if p1.y > height then { p1 with y := height, vy := -p1.vy * damping }
  else p1

/-- C7: boundary handling clamps a crossed coordinate exactly to the
wall and reflects the corresponding velocity component with factor 0.8;
afterwards the position lies in `[0, width] × [0, height]`. -/
theorem handleBoundaries_spec (w h : ℝ) (p : Particle) (hw : 0 ≤ w) (hh : 0 ≤ h) :
    (p.x < 0 → (handleBoundaries w h p).x = 0 ∧
        (handleBoundaries w h p).vx = -p.vx * 0.8) ∧
    (p.x > w → (handleBoundaries w h p).x = w ∧
        (handleBoundaries w h p).vx = -p.vx * 0.8) ∧
    (p.y < 0 → (handleBoundaries w h p).y = 0 ∧
        (handleBoundaries w h p).vy = -p.vy * 0.8) ∧
    (p.y > h → (handleBoundaries w h p).y = h ∧
        (handleBoundaries w h p).vy = -p.vy * 0.8) ∧
    (0 ≤ (handleBoundaries w h p).x ∧ (handleBoundaries w h p).x ≤ w ∧
     0 ≤ (handleBoundaries w h p).y ∧ (handleBoundaries w h p).y ≤ h) := by
  simp only [handleBoundaries]
  split_ifs with h1 h2 h3 h4 h5 h6 h7 h8 <;>
    refine ⟨fun hx => ⟨?_, ?_⟩, fun hx => ⟨?_, ?_⟩, fun hy => ⟨?_, ?_⟩,
      fun hy => ⟨?_, ?_⟩, ?_, ?_, ?_, ?_⟩ <;>
    simp_all <;> linarith

/-- C7 witness: a particle past the left wall and below the bottom wall
is clamped to `(0, 100)` with both velocity components reflected. -/
theorem handleBoundaries_spec_witness :
    (0:ℝ) ≤ 100 ∧
    ((-5:ℝ) < 0 → (handleBoundaries 100 100 ⟨-5, 200, 3, 4, 1, 0, 1⟩).x = 0 ∧
        (handleBoundaries 100 100 ⟨-5, 200, 3, 4, 1, 0, 1⟩).vx = -3 * 0.8) ∧
    ((200:ℝ) > 100 → (handleBoundaries 100 100 ⟨-5, 200, 3, 4, 1, 0, 1⟩).y = 100 ∧
        (handleBoundaries 100 100 ⟨-5, 200, 3, 4, 1, 0, 1⟩).vy = -4 * 0.8) ∧
    (0 ≤ (handleBoundaries 100 100 ⟨-5, 200, 3, 4, 1, 0, 1⟩).x ∧
        (handleBoundaries 100 100 ⟨-5, 200, 3, 4, 1, 0, 1⟩).x ≤ 100) := by
  have h := handleBoundaries_spec 100 100 ⟨-5, 200, 3, 4, 1, 0, 1⟩
    (by norm_num) (by norm_num)
  exact ⟨by norm_num, fun _ => h.1 (by norm_num), fun _ => h.2.2.2.1 (by norm_num),
    h.2.2.2.2.1, h.2.2.2.2.2.1⟩

/-! ### Interactive impulse (claims C8, C10) -/

/-- Source `FluidSimulation.addForce`, effect on one particle: particles with
`0 < distanceSquared < radius²` receive an impulse along `(dx, dy)`
scaled by `(radius - distance) / radius * strength * 100 / distance`;
all other particles (including one exactly at the force origin) are
untouched.  The source's `&&` guard is the conjunction in the `if`. -/
def addForceParticle (x y strength : ℝ) (p : Particle) : Particle :=
  let radius : ℝ := 50
  let radiusSquared := radius * radius
  let dx := p.x - x
  let dy := p.y - y
  let distanceSquared := dx * dx + dy * dy
  if distanceSquared < radiusSquared ∧ distanceSquared > 0 then
    let distance := Real.sqrt distanceSquared
    let force := (radius - distance) / radius * strength * 100
    { p with vx := p.vx + dx / distance * force, vy := p.vy + dy / distance * force }
  else p

/-- Source `FluidSimulation.addForce` over the whole particle array. -/
def addForce (x y strength : ℝ) (ps : List Particle) : List Particle :=
  ps.map (addForceParticle x y strength)

/-- Pythagorean helper: an impulse `(dx/d·F, dy/d·F)` with
`d² = dx² + dy²` has squared magnitude `F²`. -/
lemma radial_impulse_sq (dx dy d F : ℝ) (hd : d ≠ 0)
    (hsq : d * d = dx * dx + dy * dy) :
    (dx / d * F) ^ 2 + (dy / d * F) ^ 2 = F ^ 2 := by
  field_simp
  linear_combination (-(F ^ 2)) * hsq

/-- C8: particles at distance ≥ 50 from the force origin, and the
particle exactly at the origin, receive no impulse; a particle at
distance `d ∈ (0, 50)` receives the impulse `(F/d)·(dx, dy)` with
`F = (50 - d)/50 · strength · 100`, whose squared magnitude is `F²` and
which is a nonnegative multiple of the vector from the origin to the
particle; the position is untouched.  The `distanceSquared > 0` guard
means the division by `distance` only ever happens with a positive
divisor. -/
theorem addForce_radial_impulse (x y s : ℝ) (p : Particle) (hs : 0 ≤ s) :
    (50 * 50 ≤ (p.x - x) * (p.x - x) + (p.y - y) * (p.y - y) →
        addForceParticle x y s p = p) ∧
    ((p.x - x) * (p.x - x) + (p.y - y) * (p.y - y) = 0 →
        addForceParticle x y s p = p) ∧
    (0 < (p.x - x) * (p.x - x) + (p.y - y) * (p.y - y) →
      (p.x - x) * (p.x - x) + (p.y - y) * (p.y - y) < 50 * 50 →
      (addForceParticle x y s p).x = p.x ∧
      (addForceParticle x y s p).y = p.y ∧
      (addForceParticle x y s p).vx - p.vx =
        (50 - Real.sqrt ((p.x - x) * (p.x - x) + (p.y - y) * (p.y - y))) / 50 * s * 100
          / Real.sqrt ((p.x - x) * (p.x - x) + (p.y - y) * (p.y - y)) * (p.x - x) ∧
      (addForceParticle x y s p).vy - p.vy =
        (50 - Real.sqrt ((p.x - x) * (p.x - x) + (p.y - y) * (p.y - y))) / 50 * s * 100
          / Real.sqrt ((p.x - x) * (p.x - x) + (p.y - y) * (p.y - y)) * (p.y - y) ∧
      ((addForceParticle x y s p).vx - p.vx) ^ 2 +
          ((addForceParticle x y s p).vy - p.vy) ^ 2 =
        ((50 - Real.sqrt ((p.x - x) * (p.x - x) + (p.y - y) * (p.y - y))) / 50 * s * 100) ^ 2 ∧
      0 ≤ (50 - Real.sqrt ((p.x - x) * (p.x - x) + (p.y - y) * (p.y - y))) / 50 * s * 100
          / Real.sqrt ((p.x - x) * (p.x - x) + (p.y - y) * (p.y - y))) := by
  set dx := p.x - x with hdx
  set dy := p.y - y with hdy
  set dsq := dx * dx + dy * dy with hdsq
  refine ⟨?_, ?_, ?_⟩
  · intro hfar
    simp only [addForceParticle]
    rw [if_neg]
    rintro ⟨hlt, -⟩
    exact absurd hfar (not_le.mpr hlt)
  · intro hzero
    simp only [addForceParticle]
    rw [if_neg]
    rintro ⟨-, hpos⟩
    exact absurd hzero (ne_of_gt hpos)
  · intro hpos hlt
    have hdnn : (0:ℝ) ≤ dsq := le_of_lt hpos
    have hdpos : 0 < Real.sqrt dsq := Real.sqrt_pos.mpr hpos
    have hdne : Real.sqrt dsq ≠ 0 := ne_of_gt hdpos
    have hsq : Real.sqrt dsq * Real.sqrt dsq = dsq := Real.mul_self_sqrt hdnn
    have hle50 : Real.sqrt dsq ≤ 50 := by
      have := Real.sqrt_le_sqrt (le_of_lt hlt)
      rwa [show ((50:ℝ) * 50) = 50 ^ 2 by ring, Real.sqrt_sq (by norm_num : (0:ℝ) ≤ 50)] at this
    have hval : addForceParticle x y s p =
        { p with
            vx := p.vx + dx / Real.sqrt dsq * ((50 - Real.sqrt dsq) / 50 * s * 100),
            vy := p.vy + dy / Real.sqrt dsq * ((50 - Real.sqrt dsq) / 50 * s * 100) } := by
      simp only [addForceParticle, ← hdx, ← hdy, ← hdsq]
      rw [if_pos ⟨hlt, hpos⟩]
    refine ⟨by rw [hval], by rw [hval], by rw [hval]; simp; ring, by rw [hval]; simp; ring,
      ?_, ?_⟩
    · rw [hval]
      simp only
      rw [show p.vx + dx / Real.sqrt dsq * ((50 - Real.sqrt dsq) / 50 * s * 100) - p.vx =
            dx / Real.sqrt dsq * ((50 - Real.sqrt dsq) / 50 * s * 100) from by ring,
          show p.vy + dy / Real.sqrt dsq * ((50 - Real.sqrt dsq) / 50 * s * 100) - p.vy =
            dy / Real.sqrt dsq * ((50 - Real.sqrt dsq) / 50 * s * 100) from by ring]
      exact radial_impulse_sq dx dy (Real.sqrt dsq) ((50 - Real.sqrt dsq) / 50 * s * 100)
        hdne (by rw [hsq])
    · have hF : 0 ≤ (50 - Real.sqrt dsq) / 50 * s * 100 := by
        have : 0 ≤ 50 - Real.sqrt dsq := by linarith
        positivity
      exact div_nonneg hF (le_of_lt hdpos)

/-- C8 witness: a particle at `(21, 28)` relative to a force at `(3, 4)`
(distance 30) with strength 1 gains velocity `(24, 32)`: the impulse
magnitude is `(50-30)/50·1·100 = 40` along the unit vector `(18, 24)/30`. -/
theorem addForce_radial_impulse_witness :
    (addForceParticle 3 4 1 ⟨21, 28, 0, 0, 1, 0, 1⟩).vx = 24 ∧
    (addForceParticle 3 4 1 ⟨21, 28, 0, 0, 1, 0, 1⟩).vy = 32 := by
  have h := (addForce_radial_impulse 3 4 1 ⟨21, 28, 0, 0, 1, 0, 1⟩ (by norm_num)).2.2
    (by norm_num) (by norm_num)
  have hd : Real.sqrt (((21:ℝ) - 3) * (21 - 3) + (28 - 4) * (28 - 4)) = 30 := by
    rw [show ((21:ℝ) - 3) * (21 - 3) + (28 - 4) * (28 - 4) = 30 ^ 2 by norm_num]
    exact Real.sqrt_sq (by norm_num)
  have hvx := h.2.2.1
  have hvy := h.2.2.2.1
  rw [hd] at hvx hvy
  norm_num at hvx hvy
  exact ⟨hvx, hvy⟩

/-! ### Simulation state (claims C6, C9, C10) -/

/-- State of a `FluidSimulation` instance: canvas size, the parameters
the claims touch (`viscosity`, `speed`, `particleCount`), the scene
string, the audio influence scalar, the particle array, the three flat
`Float32Array` buffers, and the spatial hash (a map from cell key to the
list of particle indices inserted, in insertion order).  The coarse
velocity/pressure fields are not consulted by any claim and are omitted. -/
structure SimState where
  width : ℝ
  height : ℝ
  viscosity : ℝ
  speed : ℝ
  particleCount : ℕ
  currentScene : String
  audioInfluence : ℝ
  particles : List Particle
  forces : List ℝ
  positions : List ℝ
  velocities : List ℝ
  spatialHash : ℤ × ℤ → List ℕ

@[ext] theorem SimState.componentwise_eq {s t : SimState}
    (h1 : s.width = t.width) (h2 : s.height = t.height)
    (h3 : s.viscosity = t.viscosity) (h4 : s.speed = t.speed)
    (h5 : s.particleCount = t.particleCount)
    (h6 : s.currentScene = t.currentScene)
    (h7 : s.audioInfluence = t.audioInfluence)
    (h8 : s.particles = t.particles) (h9 : s.forces = t.forces)
    (h10 : s.positions = t.positions) (h11 : s.velocities = t.velocities)
    (h12 : s.spatialHash = t.spatialHash) : s = t := by
  cases s; cases t; simp_all

/-- Source `this.cellSize` of the source, fixed at 20. -/
def cellSize : ℝ := 20

/-- The spatial-hash cell key of a particle:
`(Math.floor(x / cellSize), Math.floor(y / cellSize))`. -/
def hashKey (p : Particle) : ℤ × ℤ := (⌊p.x / cellSize⌋, ⌊p.y / cellSize⌋)

/-- Source `FluidSimulation.updateSpatialHash`: append `index` to the bucket of
the particle's cell. -/
def updateSpatialHash (hash : ℤ × ℤ → List ℕ) (p : Particle) (index : ℕ) :
    ℤ × ℤ → List ℕ :=
  fun k => if k = hashKey p then hash k ++ [index] else hash k

/-- One particle's journey through `updateParticleBatch`, in the
source's order: force computation, velocity integration `v += f·dt`,
damping `v *= 0.99`, position integration `p += v·dt·speed`, boundary
handling.  (The spatial-hash and buffer writes act on the state, not the
particle, and appear in `processOne`.) -/
def stepParticle (scene : String) (w h aI visc speed dt now : ℝ) (p : Particle) :
    Particle :=
  let f := applyParticleForces scene w h aI visc now p
  let p1 := { p with vx := p.vx + f.1 * dt, vy := p.vy + f.2 * dt }
  let p2 := { p1 with vx := p1.vx * 0.99, vy := p1.vy * 0.99 }
  let p3 := { p2 with x := p2.x + p2.vx * dt * speed, y := p2.y + p2.vy * dt * speed }
  handleBoundaries w h p3

/-- The body of the inner loop of `updateParticleBatch` for index `i`:
write the force pair into `forces[2i], 2i+1]`, integrate/damp/move the
particle reading the force back from the buffer, handle boundaries,
insert the index into the spatial hash at the post-update cell, and
mirror the particle into the `positions`/`velocities` buffers. -/
def processOne (dt now : ℝ) (st : SimState) (i : ℕ) : SimState :=
  let p := st.particles.getD i default
  let f := applyParticleForces st.currentScene st.width st.height
    st.audioInfluence st.viscosity now p
  let forces1 := (st.forces.set (2 * i) f.1).set (2 * i + 1) f.2
  let p1 := { p with vx := p.vx + forces1.getD (2 * i) 0 * dt,
                     vy := p.vy + forces1.getD (2 * i + 1) 0 * dt }
  let p2 := { p1 with vx := p1.vx * 0.99, vy := p1.vy * 0.99 }
  let p3 := { p2 with x := p2.x + p2.vx * dt * st.speed,
                      y := p2.y + p2.vy * dt * st.speed }
  let p4 := handleBoundaries st.width st.height p3
  { st with particles := st.particles.set i p4,
            forces := forces1,
            spatialHash := updateSpatialHash st.spatialHash p4 i,
            positions := (st.positions.set (2 * i) p4.x).set (2 * i + 1) p4.y,
            velocities := (st.velocities.set (2 * i) p4.vx).set (2 * i + 1) p4.vy }

/-- Source `updateParticleBatch(start, end, dt)`: the inner
`for (let i = start; i < end; i++)` loop. -/
def processRange (dt now : ℝ) (st : SimState) (start stop : ℕ) : SimState :=
  (List.range' start (stop - start)).foldl (processOne dt now) st

/-- The outer batch loop of `update`:
`for (let i = 0; i < particles.length; i += batchSize)` with
`batchSize = 100` and `end = min(i + batchSize, particles.length)`.
`n` is `this.particles.length`, which no iteration changes. -/
def updateLoop (dt now : ℝ) (n : ℕ) (st : SimState) (i : ℕ) : SimState :=
  if _h : i < n then
    updateLoop dt now n (processRange dt now st i (min (i + 100) n)) (i + 100)
  else st
termination_by n - i
decreasing_by omega

/-- Source `FluidSimulation.update(deltaTime, audioData)`: clamp the step to
`min(deltaTime/1000, 0.016)`, update the audio influence when audio data
is supplied (`null`/`undefined` modelled as `none`; the NaN behaviour of
the empty array lives in `updateAudioStep`), clear the spatial hash, and
run the batch loop.  `applySceneForces` is an empty method and the
velocity-field decay touches no state modelled here. -/
def updateSim (deltaTime : ℝ) (audioData : Option (List ℝ)) (now : ℝ)
    (st : SimState) : SimState :=
  let dt := min (deltaTime / 1000) 0.016
  let st1 :=
    match audioData with
    | some audio => { st with audioInfluence := audio.sum / (audio.length : ℝ) / 255 }
    | none => st
  let st2 := { st1 with spatialHash := fun _ => [] }
  updateLoop dt now st2.particles.length st2 0

/-- The outer batch loop visits exactly the indices `i, …, n-1` in
order: batching by 100 is equivalent to a single pass. -/
lemma updateLoop_eq_foldl (dt now : ℝ) (n : ℕ) :
    ∀ (m i : ℕ), n - i = m → ∀ st : SimState,
      updateLoop dt now n st i = (List.range' i (n - i)).foldl (processOne dt now) st := by
  intro m
  induction m using Nat.strong_induction_on with
  | _ m ih =>
    intro i hm st
    rw [updateLoop]
    split_ifs with h
    · rw [ih (n - (i + 100)) (by omega) (i + 100) rfl, processRange, ← List.foldl_append]
      congr 1
      rcases le_or_lt (i + 100) n with hle | hlt
      · rw [min_eq_left hle]
        have h100 : i + 100 - i = 100 := by omega
        rw [h100, List.range'_append_1]
        congr 1
        omega
      · rw [min_eq_right (le_of_lt hlt)]
        have h0 : n - (i + 100) = 0 := by omega
        rw [h0]
        simp
    · have h0 : n - i = 0 := by omega
      rw [h0]
      rfl

/-! ### Pointwise lemmas about `List.set`/`List.getD` -/

lemma getD_set_self {α : Type _} (l : List α) (i : ℕ) (a d : α) (h : i < l.length) :
    (l.set i a).getD i d = a := by
  rw [List.getD_eq_getElem?_getD, List.getElem?_set_self h]
  rfl

lemma getD_set_ne {α : Type _} (l : List α) (i j : ℕ) (a d : α) (h : i ≠ j) :
    (l.set i a).getD j d = l.getD j d := by
  rw [List.getD_eq_getElem?_getD, List.getD_eq_getElem?_getD, List.getElem?_set_ne h]

/-- The per-particle pipeline with a state's configuration plugged in. -/
def stepF (dt now : ℝ) (st : SimState) : Particle → Particle :=
  stepParticle st.currentScene st.width st.height st.audioInfluence st.viscosity
    st.speed dt now

/-- The local force engine with a state's configuration plugged in. -/
def forceF (now : ℝ) (st : SimState) : Particle → ℝ × ℝ :=
  applyParticleForces st.currentScene st.width st.height st.audioInfluence
    st.viscosity now


/-- Invariant of the particle loop: after processing indices `0..k-1`,
the configuration and all buffer lengths are unchanged, indices `≥ k`
still hold their original particles, indices `< k` hold the stepped
particle with `positions`/`velocities` mirroring it, and the spatial
hash holds exactly the processed indices, bucketed by post-update cell
in index order. -/
lemma processFold_inv (dt now : ℝ) (st : SimState)
    (hf : st.forces.length = 2 * st.particles.length)
    (hp : st.positions.length = 2 * st.particles.length)
    (hv : st.velocities.length = 2 * st.particles.length) :
    ∀ k, k ≤ st.particles.length →
    ∀ s, s = (List.range' 0 k).foldl (processOne dt now) st →
      s.width = st.width ∧ s.height = st.height ∧ s.viscosity = st.viscosity ∧
      s.speed = st.speed ∧ s.particleCount = st.particleCount ∧
      s.currentScene = st.currentScene ∧ s.audioInfluence = st.audioInfluence ∧
      s.particles.length = st.particles.length ∧
      s.forces.length = 2 * st.particles.length ∧
      s.positions.length = 2 * st.particles.length ∧
      s.velocities.length = 2 * st.particles.length ∧
      (∀ j, k ≤ j → s.particles.getD j default = st.particles.getD j default) ∧
      (∀ j, j < k → s.particles.getD j default =
          stepF dt now st (st.particles.getD j default)) ∧
      (∀ j, j < k →
          s.positions.getD (2 * j) 0 = (stepF dt now st (st.particles.getD j default)).x ∧
          s.positions.getD (2 * j + 1) 0 = (stepF dt now st (st.particles.getD j default)).y) ∧
      (∀ j, j < k →
          s.velocities.getD (2 * j) 0 = (stepF dt now st (st.particles.getD j default)).vx ∧
          s.velocities.getD (2 * j + 1) 0 = (stepF dt now st (st.particles.getD j default)).vy) ∧
      s.spatialHash = fun key => st.spatialHash key ++
        (List.range k).filter
          (fun i => decide (hashKey (stepF dt now st (st.particles.getD i default)) = key)) := by
  intro k
  induction k with
  | zero =>
    intro _ s hs
    have hs0 : s = st := by simpa using hs
    subst hs0
    refine ⟨rfl, rfl, rfl, rfl, rfl, rfl, rfl, rfl, hf, hp, hv,
      fun j _ => rfl, fun j hj => absurd hj (Nat.not_lt_zero j),
      fun j hj => absurd hj (Nat.not_lt_zero j),
      fun j hj => absurd hj (Nat.not_lt_zero j), ?_⟩
    funext key
    simp
  | succ k ih =>
    intro hk1 s' hs'
    have hk : k ≤ st.particles.length := by omega
    have hkn : k < st.particles.length := by omega
    obtain ⟨hw, hh, hvis, hsp, hpc, hsc, hai, hlp, hlf, hlx, hlv, hsuf, hdone,
      hpos, hvel, hhash⟩ := ih hk _ rfl
    set s := (List.range' 0 k).foldl (processOne dt now) st with hsdef
    have hrange : List.range' 0 (k + 1) = List.range' 0 k ++ [k] := by
      rw [List.range'_1_concat]
      simp
    rw [hrange, List.foldl_append] at hs'
    simp only [List.foldl_cons, List.foldl_nil, ← hsdef] at hs'
    have hgetk : s.particles.getD k default = st.particles.getD k default :=
      hsuf k le_rfl
    have hread : ∀ a b : ℝ,
        ((s.forces.set (2 * k) a).set (2 * k + 1) b).getD (2 * k) 0 = a := by
      intro a b
      have hl1 : 2 * k < (s.forces.set (2 * k) a).length := by
        rw [List.length_set, hlf]; omega
      rw [getD_set_ne (s.forces.set (2 * k) a) (2 * k + 1) (2 * k) b 0 (by omega),
        getD_set_self s.forces (2 * k) a 0 (by rw [hlf]; omega)]
    have hread1 : ∀ a b : ℝ,
        ((s.forces.set (2 * k) a).set (2 * k + 1) b).getD (2 * k + 1) 0 = b := by
      intro a b
      rw [getD_set_self (s.forces.set (2 * k) a) (2 * k + 1) b 0
        (by rw [List.length_set, hlf]; omega)]
    have hproc : s' = { s with
        particles := s.particles.set k (stepF dt now st (st.particles.getD k default)),
        forces := (s.forces.set (2 * k)
            (forceF now st (st.particles.getD k default)).1).set (2 * k + 1)
            (forceF now st (st.particles.getD k default)).2,
        spatialHash := updateSpatialHash s.spatialHash
          (stepF dt now st (st.particles.getD k default)) k,
        positions := (s.positions.set (2 * k)
            (stepF dt now st (st.particles.getD k default)).x).set (2 * k + 1)
            (stepF dt now st (st.particles.getD k default)).y,
        velocities := (s.velocities.set (2 * k)
            (stepF dt now st (st.particles.getD k default)).vx).set (2 * k + 1)
            (stepF dt now st (st.particles.getD k default)).vy } := by
      rw [hs']
      simp only [processOne, hgetk, hw, hh, hvis, hsp, hsc, hai, hread, hread1]
      simp only [stepF, stepParticle, forceF]
    have hP : s'.particles =
        s.particles.set k (stepF dt now st (st.particles.getD k default)) := by
      rw [hproc]
    have hF : s'.forces = (s.forces.set (2 * k)
        (forceF now st (st.particles.getD k default)).1).set (2 * k + 1)
        (forceF now st (st.particles.getD k default)).2 := by
      rw [hproc]
    have hX : s'.positions = (s.positions.set (2 * k)
        (stepF dt now st (st.particles.getD k default)).x).set (2 * k + 1)
        (stepF dt now st (st.particles.getD k default)).y := by
      rw [hproc]
    have hVl : s'.velocities = (s.velocities.set (2 * k)
        (stepF dt now st (st.particles.getD k default)).vx).set (2 * k + 1)
        (stepF dt now st (st.particles.getD k default)).vy := by
      rw [hproc]
    have hH : s'.spatialHash = updateSpatialHash s.spatialHash
        (stepF dt now st (st.particles.getD k default)) k := by
      rw [hproc]
    refine ⟨by rw [hproc]; exact hw, by rw [hproc]; exact hh, by rw [hproc]; exact hvis,
      by rw [hproc]; exact hsp, by rw [hproc]; exact hpc, by rw [hproc]; exact hsc,
      by rw [hproc]; exact hai,
      by rw [hP, List.length_set]; exact hlp,
      by rw [hF, List.length_set, List.length_set]; exact hlf,
      by rw [hX, List.length_set, List.length_set]; exact hlx,
      by rw [hVl, List.length_set, List.length_set]; exact hlv, ?_, ?_, ?_, ?_, ?_⟩
    · intro j hj
      rw [hP, getD_set_ne s.particles k j _ default (by omega)]
      exact hsuf j (by omega)
    · intro j hj
      rcases Nat.lt_succ_iff_lt_or_eq.mp hj with hjk | hjk
      · rw [hP, getD_set_ne s.particles k j _ default (by omega)]
        exact hdone j hjk
      · subst hjk
        rw [hP, getD_set_self s.particles j _ default (by rw [hlp]; exact hkn)]
    · intro j hj
      rcases Nat.lt_succ_iff_lt_or_eq.mp hj with hjk | hjk
      · refine ⟨?_, ?_⟩
        · rw [hX, getD_set_ne _ (2 * k + 1) (2 * j) _ 0 (by omega),
            getD_set_ne s.positions (2 * k) (2 * j) _ 0 (by omega)]
          exact (hpos j hjk).1
        · rw [hX, getD_set_ne _ (2 * k + 1) (2 * j + 1) _ 0 (by omega),
            getD_set_ne s.positions (2 * k) (2 * j + 1) _ 0 (by omega)]
          exact (hpos j hjk).2
      · subst hjk
        refine ⟨?_, ?_⟩
        · rw [hX, getD_set_ne _ (2 * j + 1) (2 * j) _ 0 (by omega),
            getD_set_self s.positions (2 * j) _ 0 (by rw [hlx]; omega)]
        · rw [hX, getD_set_self _ (2 * j + 1) _ 0
            (by rw [List.length_set, hlx]; omega)]
    · intro j hj
      rcases Nat.lt_succ_iff_lt_or_eq.mp hj with hjk | hjk
      · refine ⟨?_, ?_⟩
        · rw [hVl, getD_set_ne _ (2 * k + 1) (2 * j) _ 0 (by omega),
            getD_set_ne s.velocities (2 * k) (2 * j) _ 0 (by omega)]
          exact (hvel j hjk).1
        · rw [hVl, getD_set_ne _ (2 * k + 1) (2 * j + 1) _ 0 (by omega),
            getD_set_ne s.velocities (2 * k) (2 * j + 1) _ 0 (by omega)]
          exact (hvel j hjk).2
      · subst hjk
        refine ⟨?_, ?_⟩
        · rw [hVl, getD_set_ne _ (2 * j + 1) (2 * j) _ 0 (by omega),
            getD_set_self s.velocities (2 * j) _ 0 (by rw [hlv]; omega)]
        · rw [hVl, getD_set_self _ (2 * j + 1) _ 0
            (by rw [List.length_set, hlv]; omega)]
    · rw [hH, hhash]
      funext key
      simp only [updateSpatialHash]
      rw [List.range_succ, List.filter_append]
      by_cases hkey : key = hashKey (stepF dt now st (st.particles.getD k default))
      · rw [if_pos hkey]
        have hfk : List.filter
            (fun i => decide (hashKey (stepF dt now st (st.particles.getD i default)) = key))
            [k] = [k] := by
          simp [hkey]
        rw [hfk, List.append_assoc]
      · rw [if_neg hkey]
        have hfk : List.filter
            (fun i => decide (hashKey (stepF dt now st (st.particles.getD i default)) = key))
            [k] = [] := by
          simp only [List.filter_cons, List.filter_nil]
          rw [if_neg]
          simp only [decide_eq_true_eq]
          intro hcon
          exact absurd hcon.symm hkey
        rw [hfk, List.append_nil]

lemma getD_eq_getElem {α : Type _} (l : List α) (i : ℕ) (d : α) (h : i < l.length) :
    l.getD i d = l[i] := by
  rw [List.getD_eq_getElem?_getD, List.getElem?_eq_getElem h]
  rfl

/-- The audio-influence value in force after an `update(deltaTime,
audioData)` call: the mean of the supplied samples over 255, or the
previous value when no audio data is supplied. -/
def newAudioInfluence (audioData : Option (List ℝ)) (st : SimState) : ℝ :=
  match audioData with
  | some audio => audio.sum / (audio.length : ℝ) / 255
  | none => st.audioInfluence

/-- C6: `update` clamps the step to `dt = min(deltaTime/1000, 0.016)`,
and the batched loop (batches of 100 in `updateSim`/`updateLoop`) sends
each particle through exactly the pipeline of `stepParticle` — force
computation, `v += f·dt`, `v *= 0.99`, `p += v·dt·speed`, boundary
handling, in that order — and inserts each index into the spatial hash
at its post-update cell. -/
theorem update_batches_pipeline_order (st : SimState) (deltaTime now : ℝ)
    (audioData : Option (List ℝ))
    (hf : st.forces.length = 2 * st.particles.length)
    (hp : st.positions.length = 2 * st.particles.length)
    (hv : st.velocities.length = 2 * st.particles.length) :
    (updateSim deltaTime audioData now st).particles =
      st.particles.map (stepParticle st.currentScene st.width st.height
        (newAudioInfluence audioData st) st.viscosity st.speed
        (min (deltaTime / 1000) 0.016) now) ∧
    ∀ i, i < st.particles.length →
      i ∈ (updateSim deltaTime audioData now st).spatialHash
        (hashKey (stepParticle st.currentScene st.width st.height
          (newAudioInfluence audioData st) st.viscosity st.speed
          (min (deltaTime / 1000) 0.016) now (st.particles.getD i default))) := by
  cases audioData with
  | none =>
    set dt := min (deltaTime / 1000) 0.016 with hdt
    set st2 : SimState := { st with spatialHash := fun _ => [] } with hst2
    have hloop : updateSim deltaTime none now st =
        (List.range' 0 st2.particles.length).foldl (processOne dt now) st2 := by
      show updateLoop dt now st2.particles.length st2 0 = _
      rw [updateLoop_eq_foldl dt now st2.particles.length st2.particles.length 0
        (by omega) st2, Nat.sub_zero]
    obtain ⟨-, -, -, -, -, -, -, hlp, -, -, -, -, hdone, hpos, hvel, hhash⟩ :=
      processFold_inv dt now st2 hf hp hv st2.particles.length le_rfl _ rfl
    have hstep : stepF dt now st2 = stepParticle st.currentScene st.width st.height
        (newAudioInfluence none st) st.viscosity st.speed dt now := rfl
    constructor
    · rw [hloop]
      apply List.ext_getElem
      · rw [hlp, List.length_map]
      · intro i h1 h2
        have hin : i < st.particles.length := by
          rw [← hlp]; exact h1
        have := hdone i hin
        rw [hstep] at this
        rw [← getD_eq_getElem _ i default h1, this, List.getElem_map,
          getD_eq_getElem st.particles i default hin]
    · intro i hi
      rw [hloop, hhash]
      refine List.mem_filter.mpr ⟨List.mem_range.mpr hi, ?_⟩
      rw [hstep]
      simp
  | some audio =>
    set dt := min (deltaTime / 1000) 0.016 with hdt
    set st2 : SimState := { st with
      audioInfluence := audio.sum / (audio.length : ℝ) / 255,
      spatialHash := fun _ => [] } with hst2
    have hloop : updateSim deltaTime (some audio) now st =
        (List.range' 0 st2.particles.length).foldl (processOne dt now) st2 := by
      show updateLoop dt now st2.particles.length st2 0 = _
      rw [updateLoop_eq_foldl dt now st2.particles.length st2.particles.length 0
        (by omega) st2, Nat.sub_zero]
    obtain ⟨-, -, -, -, -, -, -, hlp, -, -, -, -, hdone, hpos, hvel, hhash⟩ :=
      processFold_inv dt now st2 hf hp hv st2.particles.length le_rfl _ rfl
    have hstep : stepF dt now st2 = stepParticle st.currentScene st.width st.height
        (newAudioInfluence (some audio) st) st.viscosity st.speed dt now := rfl
    constructor
    · rw [hloop]
      apply List.ext_getElem
      · rw [hlp, List.length_map]
      · intro i h1 h2
        have hin : i < st.particles.length := by
          rw [← hlp]; exact h1
        have := hdone i hin
        rw [hstep] at this
        rw [← getD_eq_getElem _ i default h1, this, List.getElem_map,
          getD_eq_getElem st.particles i default hin]
    · intro i hi
      rw [hloop, hhash]
      refine List.mem_filter.mpr ⟨List.mem_range.mpr hi, ?_⟩
      rw [hstep]
      simp

/-- Concrete one-particle state for witnesses. -/
def simW : SimState :=
  { width := 100, height := 100, viscosity := 0.0001, speed := 1, particleCount := 1,
    currentScene := "default", audioInfluence := 0,
    particles := [⟨5, 6, 1, 2, 1, 0, 2⟩],
    forces := [0, 0], positions := [5, 6], velocities := [1, 2],
    spatialHash := fun _ => [] }

/-- C6 witness: the one-particle state satisfies the length hypotheses
and the update equals the mapped pipeline. -/
theorem update_batches_pipeline_order_witness :
    simW.forces.length = 2 * simW.particles.length ∧
    (updateSim 16 none 0 simW).particles =
      simW.particles.map (stepParticle simW.currentScene simW.width simW.height
        (newAudioInfluence none simW) simW.viscosity simW.speed
        (min ((16 : ℝ) / 1000) 0.016) 0) :=
  ⟨rfl, (update_batches_pipeline_order simW 16 0 none rfl rfl rfl).1⟩

/-! ### Particle initialisation and buffer mirroring (claim C9) -/

/-- JavaScript `%` on nonnegative operands (remainder; floor = trunc
for nonnegative arguments). -/
def jsMod (a b : ℝ) : ℝ := a - b * ⌊a / b⌋

/-- Source `FluidSimulation.getParticleColor`: golden-angle hue
`(index * 137.508) % 360` (the saturation/lightness parts of the HSL
string are constant and not modelled). -/
def getParticleColor (index : ℕ) : ℝ := jsMod ((index : ℝ) * 137.508) 360

/-- One particle as built by the loop body of `initializeParticles`;
`rnd` is the `Math.random()` stream, consumed in source order
(x, y, vx, vy, size — five calls per particle). -/
def mkParticle (w h : ℝ) (rnd : ℕ → ℝ) (i : ℕ) : Particle :=
  { x := rnd (5 * i) * w, y := rnd (5 * i + 1) * h,
    vx := (rnd (5 * i + 2) - 0.5) * 2, vy := (rnd (5 * i + 3) - 0.5) * 2,
    life := 1, color := getParticleColor i, size := rnd (5 * i + 4) * 3 + 1 }

/-- Loop body of `initializeParticles`: push the particle and pre-fill
the typed arrays at `2i`, `2i+1`. -/
def initOne (rnd : ℕ → ℝ) (w h : ℝ) (s : SimState) (i : ℕ) : SimState :=
  let p := mkParticle w h rnd i
  { s with particles := s.particles ++ [p],
           positions := (s.positions.set (2 * i) p.x).set (2 * i + 1) p.y,
           velocities := (s.velocities.set (2 * i) p.vx).set (2 * i + 1) p.vy }

/-- Source `FluidSimulation.initializeParticles`: reset `this.particles` to
`[]`, then run the loop for `i = 0 .. particleCount-1`. -/
def initializeParticles (rnd : ℕ → ℝ) (st : SimState) : SimState :=
  (List.range st.particleCount).foldl (initOne rnd st.width st.height)
    { st with particles := [] }

/-- The `FluidSimulation` constructor restricted to the fields modelled
here: allocate the three `Float32Array(particleCount * 2)` buffers
(zero-filled), default scene and zero audio influence, then
`initializeParticles`. -/
def mkFluidSimulation (width height : ℝ) (particleCount : ℕ)
    (viscosity speed : ℝ) (rnd : ℕ → ℝ) : SimState :=
  initializeParticles rnd
    { width := width, height := height, viscosity := viscosity, speed := speed,
      particleCount := particleCount, currentScene := "default", audioInfluence := 0,
      particles := [],
      forces := List.replicate (2 * particleCount) 0,
      positions := List.replicate (2 * particleCount) 0,
      velocities := List.replicate (2 * particleCount) 0,
      spatialHash := fun _ => [] }

/-- Source `FluidSimulation.setParticleCount`: a no-op when the count is
unchanged, otherwise reallocate the three buffers and reinitialise. -/
def setParticleCount (count : ℕ) (rnd : ℕ → ℝ) (st : SimState) : SimState :=
  if count ≠ st.particleCount then
    initializeParticles rnd
      { st with particleCount := count,
                forces := List.replicate (2 * count) 0,
                positions := List.replicate (2 * count) 0,
                velocities := List.replicate (2 * count) 0 }
  else st

/-- The mirroring invariant of the Particle Store: buffers have length
`2N` and `positions[2i], positions[2i+1], velocities[2i],
velocities[2i+1]` equal the corresponding particle fields. -/
def buffersSynced (s : SimState) : Prop :=
  s.particles.length = s.particleCount ∧
  s.positions.length = 2 * s.particleCount ∧
  s.velocities.length = 2 * s.particleCount ∧
  ∀ i, i < s.particleCount →
    s.positions.getD (2 * i) 0 = (s.particles.getD i default).x ∧
    s.positions.getD (2 * i + 1) 0 = (s.particles.getD i default).y ∧
    s.velocities.getD (2 * i) 0 = (s.particles.getD i default).vx ∧
    s.velocities.getD (2 * i + 1) 0 = (s.particles.getD i default).vy

/-- Invariant of the initialisation loop after `k` iterations. -/
lemma initFold_inv (rnd : ℕ → ℝ) (st : SimState)
    (hp : st.positions.length = 2 * st.particleCount)
    (hv : st.velocities.length = 2 * st.particleCount) :
    ∀ k, k ≤ st.particleCount →
    ∀ s, s = (List.range k).foldl (initOne rnd st.width st.height)
        { st with particles := [] } →
      s.particleCount = st.particleCount ∧
      s.particles = (List.range k).map (mkParticle st.width st.height rnd) ∧
      s.positions.length = st.positions.length ∧
      s.velocities.length = st.velocities.length ∧
      (∀ j, j < k →
        s.positions.getD (2 * j) 0 = (mkParticle st.width st.height rnd j).x ∧
        s.positions.getD (2 * j + 1) 0 = (mkParticle st.width st.height rnd j).y ∧
        s.velocities.getD (2 * j) 0 = (mkParticle st.width st.height rnd j).vx ∧
        s.velocities.getD (2 * j + 1) 0 = (mkParticle st.width st.height rnd j).vy) := by
  intro k
  induction k with
  | zero =>
    intro _ s hs
    have hs0 : s = { st with particles := [] } := by simpa using hs
    subst hs0
    exact ⟨rfl, by simp, rfl, rfl, fun j hj => absurd hj (Nat.not_lt_zero j)⟩
  | succ k ih =>
    intro hk1 s' hs'
    have hk : k ≤ st.particleCount := by omega
    have hkn : k < st.particleCount := by omega
    obtain ⟨hpc, hparts, hlx, hlv, hsync⟩ := ih hk _ rfl
    set s := (List.range k).foldl (initOne rnd st.width st.height)
      { st with particles := [] } with hsdef
    rw [List.range_succ, List.foldl_append] at hs'
    simp only [List.foldl_cons, List.foldl_nil, ← hsdef] at hs'
    have hproc : s' = { s with
        particles := s.particles ++ [mkParticle st.width st.height rnd k],
        positions := (s.positions.set (2 * k)
            (mkParticle st.width st.height rnd k).x).set (2 * k + 1)
            (mkParticle st.width st.height rnd k).y,
        velocities := (s.velocities.set (2 * k)
            (mkParticle st.width st.height rnd k).vx).set (2 * k + 1)
            (mkParticle st.width st.height rnd k).vy } := by
      rw [hs']
      simp only [initOne]
    have hX : s'.positions = (s.positions.set (2 * k)
        (mkParticle st.width st.height rnd k).x).set (2 * k + 1)
        (mkParticle st.width st.height rnd k).y := by rw [hproc]
    have hVl : s'.velocities = (s.velocities.set (2 * k)
        (mkParticle st.width st.height rnd k).vx).set (2 * k + 1)
        (mkParticle st.width st.height rnd k).vy := by rw [hproc]
    refine ⟨by rw [hproc]; exact hpc, ?_, ?_, ?_, ?_⟩
    · rw [hproc]
      show s.particles ++ [mkParticle st.width st.height rnd k] = _
      rw [hparts, List.range_succ, List.map_append]
      simp
    · rw [hX, List.length_set, List.length_set]; exact hlx
    · rw [hVl, List.length_set, List.length_set]; exact hlv
    · intro j hj
      rcases Nat.lt_succ_iff_lt_or_eq.mp hj with hjk | hjk
      · obtain ⟨e1, e2, e3, e4⟩ := hsync j hjk
        refine ⟨?_, ?_, ?_, ?_⟩
        · rw [hX, getD_set_ne _ (2 * k + 1) (2 * j) _ 0 (by omega),
            getD_set_ne s.positions (2 * k) (2 * j) _ 0 (by omega)]
          exact e1
        · rw [hX, getD_set_ne _ (2 * k + 1) (2 * j + 1) _ 0 (by omega),
            getD_set_ne s.positions (2 * k) (2 * j + 1) _ 0 (by omega)]
          exact e2
        · rw [hVl, getD_set_ne _ (2 * k + 1) (2 * j) _ 0 (by omega),
            getD_set_ne s.velocities (2 * k) (2 * j) _ 0 (by omega)]
          exact e3
        · rw [hVl, getD_set_ne _ (2 * k + 1) (2 * j + 1) _ 0 (by omega),
            getD_set_ne s.velocities (2 * k) (2 * j + 1) _ 0 (by omega)]
          exact e4
      · subst hjk
        refine ⟨?_, ?_, ?_, ?_⟩
        · rw [hX, getD_set_ne _ (2 * j + 1) (2 * j) _ 0 (by omega),
            getD_set_self s.positions (2 * j) _ 0 (by rw [hlx, hp]; omega)]
        · rw [hX, getD_set_self _ (2 * j + 1) _ 0
            (by rw [List.length_set, hlx, hp]; omega)]
        · rw [hVl, getD_set_ne _ (2 * j + 1) (2 * j) _ 0 (by omega),
            getD_set_self s.velocities (2 * j) _ 0 (by rw [hlv, hv]; omega)]
        · rw [hVl, getD_set_self _ (2 * j + 1) _ 0
            (by rw [List.length_set, hlv, hv]; omega)]

/-- Source `initializeParticles` establishes the mirroring invariant whenever
the buffers were allocated with length `2 * particleCount`. -/
lemma initializeParticles_synced (rnd : ℕ → ℝ) (st : SimState)
    (hp : st.positions.length = 2 * st.particleCount)
    (hv : st.velocities.length = 2 * st.particleCount) :
    buffersSynced (initializeParticles rnd st) ∧
    (initializeParticles rnd st).particleCount = st.particleCount := by
  have hini : initializeParticles rnd st =
      (List.range st.particleCount).foldl (initOne rnd st.width st.height)
        { st with particles := [] } := rfl
  obtain ⟨hpc, hparts, hlx, hlv, hsync⟩ :=
    initFold_inv rnd st hp hv st.particleCount le_rfl _ rfl
  rw [← hini] at hpc hparts hlx hlv hsync
  have hgetp : ∀ i, i < st.particleCount →
      (initializeParticles rnd st).particles.getD i default =
        mkParticle st.width st.height rnd i := by
    intro i hi
    have hlen : i < (initializeParticles rnd st).particles.length := by
      rw [hparts, List.length_map, List.length_range]; exact hi
    rw [getD_eq_getElem _ i default hlen, List.getElem_of_eq hparts,
      List.getElem_map, List.getElem_range]
  unfold buffersSynced
  refine ⟨⟨?_, ?_, ?_, ?_⟩, hpc⟩
  · rw [hpc, hparts, List.length_map, List.length_range]
  · rw [hpc, hlx, hp]
  · rw [hpc, hlv, hv]
  · rw [hpc]
    intro i hi
    obtain ⟨e1, e2, e3, e4⟩ := hsync i hi
    rw [hgetp i hi]
    exact ⟨e1, e2, e3, e4⟩

/-- Pointwise description of `updateSim`: every particle is stepped
through the pipeline and the `positions`/`velocities` buffers are
rewritten to mirror the post-update particle. -/
lemma updateSim_inv (st : SimState) (deltaTime now : ℝ)
    (audioData : Option (List ℝ))
    (hf : st.forces.length = 2 * st.particles.length)
    (hp : st.positions.length = 2 * st.particles.length)
    (hv : st.velocities.length = 2 * st.particles.length) :
    (updateSim deltaTime audioData now st).particles.length = st.particles.length ∧
    ∀ i, i < st.particles.length →
      (updateSim deltaTime audioData now st).particles.getD i default =
        stepParticle st.currentScene st.width st.height
          (newAudioInfluence audioData st) st.viscosity st.speed
          (min (deltaTime / 1000) 0.016) now (st.particles.getD i default) ∧
      (updateSim deltaTime audioData now st).positions.getD (2 * i) 0 =
        ((updateSim deltaTime audioData now st).particles.getD i default).x ∧
      (updateSim deltaTime audioData now st).positions.getD (2 * i + 1) 0 =
        ((updateSim deltaTime audioData now st).particles.getD i default).y ∧
      (updateSim deltaTime audioData now st).velocities.getD (2 * i) 0 =
        ((updateSim deltaTime audioData now st).particles.getD i default).vx ∧
      (updateSim deltaTime audioData now st).velocities.getD (2 * i + 1) 0 =
        ((updateSim deltaTime audioData now st).particles.getD i default).vy := by
  cases audioData with
  | none =>
    set dt := min (deltaTime / 1000) 0.016 with hdt
    set st2 : SimState := { st with spatialHash := fun _ => [] } with hst2
    have hloop : updateSim deltaTime none now st =
        (List.range' 0 st2.particles.length).foldl (processOne dt now) st2 := by
      show updateLoop dt now st2.particles.length st2 0 = _
      rw [updateLoop_eq_foldl dt now st2.particles.length st2.particles.length 0
        (by omega) st2, Nat.sub_zero]
    obtain ⟨-, -, -, -, -, -, -, hlp, -, -, -, -, hdone, hpos, hvel, -⟩ :=
      processFold_inv dt now st2 hf hp hv st2.particles.length le_rfl _ rfl
    rw [← hloop] at hlp hdone hpos hvel
    have hstep : stepF dt now st2 = stepParticle st.currentScene st.width st.height
        (newAudioInfluence none st) st.viscosity st.speed dt now := rfl
    refine ⟨hlp, fun i hi => ?_⟩
    have hd := hdone i hi
    rw [hstep] at hd
    exact ⟨hd, by rw [(hpos i hi).1, hd, ← hstep],
      by rw [(hpos i hi).2, hd, ← hstep],
      by rw [(hvel i hi).1, hd, ← hstep],
      by rw [(hvel i hi).2, hd, ← hstep]⟩
  | some audio =>
    set dt := min (deltaTime / 1000) 0.016 with hdt
    set st2 : SimState := { st with
      audioInfluence := audio.sum / (audio.length : ℝ) / 255,
      spatialHash := fun _ => [] } with hst2
    have hloop : updateSim deltaTime (some audio) now st =
        (List.range' 0 st2.particles.length).foldl (processOne dt now) st2 := by
      show updateLoop dt now st2.particles.length st2 0 = _
      rw [updateLoop_eq_foldl dt now st2.particles.length st2.particles.length 0
        (by omega) st2, Nat.sub_zero]
    obtain ⟨-, -, -, -, -, -, -, hlp, -, -, -, -, hdone, hpos, hvel, -⟩ :=
      processFold_inv dt now st2 hf hp hv st2.particles.length le_rfl _ rfl
    rw [← hloop] at hlp hdone hpos hvel
    have hstep : stepF dt now st2 = stepParticle st.currentScene st.width st.height
        (newAudioInfluence (some audio) st) st.viscosity st.speed dt now := rfl
    refine ⟨hlp, fun i hi => ?_⟩
    have hd := hdone i hi
    rw [hstep] at hd
    exact ⟨hd, by rw [(hpos i hi).1, hd, ← hstep],
      by rw [(hpos i hi).2, hd, ← hstep],
      by rw [(hvel i hi).1, hd, ← hstep],
      by rw [(hvel i hi).2, hd, ← hstep]⟩

/-- C9: after construction (`initialize`) and after `setParticleCount`
the `positions`/`velocities` buffers have length exactly `2N` and mirror
every particle's fields; and after every `update` call the `positions`
buffer again equals the (post-update) particle coordinates. -/
theorem buffers_mirror_particles :
    (∀ (w h : ℝ) (count : ℕ) (visc speed : ℝ) (rnd : ℕ → ℝ),
      buffersSynced (mkFluidSimulation w h count visc speed rnd) ∧
      (mkFluidSimulation w h count visc speed rnd).particleCount = count) ∧
    (∀ (st : SimState) (count : ℕ) (rnd : ℕ → ℝ), buffersSynced st →
      buffersSynced (setParticleCount count rnd st) ∧
      (setParticleCount count rnd st).particleCount = count) ∧
    (∀ (st : SimState) (deltaTime now : ℝ) (audioData : Option (List ℝ)),
      st.forces.length = 2 * st.particles.length →
      st.positions.length = 2 * st.particles.length →
      st.velocities.length = 2 * st.particles.length →
      ∀ i, i < st.particles.length →
        (updateSim deltaTime audioData now st).positions.getD (2 * i) 0 =
          ((updateSim deltaTime audioData now st).particles.getD i default).x ∧
        (updateSim deltaTime audioData now st).positions.getD (2 * i + 1) 0 =
          ((updateSim deltaTime audioData now st).particles.getD i default).y) := by
  refine ⟨?_, ?_, ?_⟩
  · intro w h count visc speed rnd
    exact initializeParticles_synced rnd _ (by simp) (by simp)
  · intro st count rnd hsync
    by_cases hc : count = st.particleCount
    · rw [setParticleCount, if_neg (by simpa using hc)]
      exact ⟨hsync, hc.symm⟩
    · rw [setParticleCount, if_pos (by simpa using hc)]
      exact initializeParticles_synced rnd _ (by simp) (by simp)
  · intro st deltaTime now audioData hf hp hv i hi
    obtain ⟨-, hpt⟩ := updateSim_inv st deltaTime now audioData hf hp hv
    obtain ⟨-, e1, e2, -, -⟩ := hpt i hi
    exact ⟨e1, e2⟩

/-- C9 witness: a concrete two-particle construction is synced, resizing
it to three particles is synced, and after an `update` on the concrete
one-particle state the positions buffer matches the particles. -/
theorem buffers_mirror_particles_witness :
    buffersSynced (mkFluidSimulation 100 100 2 0.0001 1 (fun _ => 1 / 2)) ∧
    buffersSynced (setParticleCount 3 (fun _ => 1 / 2)
      (mkFluidSimulation 100 100 2 0.0001 1 (fun _ => 1 / 2))) ∧
    (updateSim 16 none 0 simW).positions.getD (2 * 0) 0 =
      ((updateSim 16 none 0 simW).particles.getD 0 default).x :=
  ⟨(buffers_mirror_particles.1 100 100 2 0.0001 1 (fun _ => 1 / 2)).1,
   (buffers_mirror_particles.2.1 (mkFluidSimulation 100 100 2 0.0001 1 (fun _ => 1 / 2))
      3 (fun _ => 1 / 2)
      (buffers_mirror_particles.1 100 100 2 0.0001 1 (fun _ => 1 / 2)).1).1,
   (buffers_mirror_particles.2.2 simW 16 0 none rfl rfl rfl 0 Nat.one_pos).1⟩

/-- Source `FluidSimulation.addForce` at the state level: it touches only the
`particles` array (each particle's `vx`/`vy`), never the typed buffers. -/
def addForceSim (x y strength : ℝ) (st : SimState) : SimState :=
  { st with particles := st.particles.map (addForceParticle x y strength) }

lemma addForceParticle_fields (x y s : ℝ) (p : Particle) :
    (addForceParticle x y s p).x = p.x ∧ (addForceParticle x y s p).y = p.y ∧
    (addForceParticle x y s p).life = p.life ∧
    (addForceParticle x y s p).color = p.color ∧
    (addForceParticle x y s p).size = p.size := by
  simp only [addForceParticle]
  split_ifs <;> exact ⟨rfl, rfl, rfl, rfl, rfl⟩

/-- C10: `addForce` mutates only particle velocities — positions,
velocities, and forces typed buffers are untouched and every particle's
`x`, `y`, `life`, `color`, `size` are unchanged; the `velocities`
buffer is only resynchronised by the next `update` call, which rewrites
`velocities[2i], velocities[2i+1]` to the updated particle's `vx`, `vy`. -/
theorem addForce_touches_only_velocity :
    (∀ (st : SimState) (x y s : ℝ),
      (addForceSim x y s st).positions = st.positions ∧
      (addForceSim x y s st).velocities = st.velocities ∧
      (addForceSim x y s st).forces = st.forces ∧
      (addForceSim x y s st).particles.length = st.particles.length ∧
      ∀ i, i < st.particles.length →
        ((addForceSim x y s st).particles.getD i default).x =
          (st.particles.getD i default).x ∧
        ((addForceSim x y s st).particles.getD i default).y =
          (st.particles.getD i default).y ∧
        ((addForceSim x y s st).particles.getD i default).life =
          (st.particles.getD i default).life ∧
        ((addForceSim x y s st).particles.getD i default).color =
          (st.particles.getD i default).color ∧
        ((addForceSim x y s st).particles.getD i default).size =
          (st.particles.getD i default).size) ∧
    (∀ (st : SimState) (deltaTime now : ℝ) (audioData : Option (List ℝ)),
      st.forces.length = 2 * st.particles.length →
      st.positions.length = 2 * st.particles.length →
      st.velocities.length = 2 * st.particles.length →
      ∀ i, i < st.particles.length →
        (updateSim deltaTime audioData now st).velocities.getD (2 * i) 0 =
          ((updateSim deltaTime audioData now st).particles.getD i default).vx ∧
        (updateSim deltaTime audioData now st).velocities.getD (2 * i + 1) 0 =
          ((updateSim deltaTime audioData now st).particles.getD i default).vy) := by
  constructor
  · intro st x y s
    refine ⟨rfl, rfl, rfl, by simp [addForceSim], ?_⟩
    intro i hi
    have hmap : (addForceSim x y s st).particles.getD i default =
        addForceParticle x y s (st.particles.getD i default) := by
      show (st.particles.map (addForceParticle x y s)).getD i default = _
      have h2 : i < (st.particles.map (addForceParticle x y s)).length := by
        rw [List.length_map]; exact hi
      rw [getD_eq_getElem _ i default h2, List.getElem_map,
        getD_eq_getElem st.particles i default hi]
    rw [hmap]
    obtain ⟨e1, e2, e3, e4, e5⟩ :=
      addForceParticle_fields x y s (st.particles.getD i default)
    exact ⟨e1, e2, e3, e4, e5⟩
  · intro st deltaTime now audioData hf hp hv i hi
    obtain ⟨-, hpt⟩ := updateSim_inv st deltaTime now audioData hf hp hv
    obtain ⟨-, -, -, e4, e5⟩ := hpt i hi
    exact ⟨e4, e5⟩

/-- C10 witness: on the concrete one-particle state, `addForce` leaves
the `velocities` buffer untouched, and an `update` rewrites it to the
particle's velocity. -/
theorem addForce_touches_only_velocity_witness :
    (addForceSim 3 4 1 simW).velocities = simW.velocities ∧
    (updateSim 16 none 0 simW).velocities.getD (2 * 0) 0 =
      ((updateSim 16 none 0 simW).particles.getD 0 default).vx :=
  ⟨(addForce_touches_only_velocity.1 simW 3 4 1).2.1,
   (addForce_touches_only_velocity.2 simW 16 0 none rfl rfl rfl 0 Nat.one_pos).1⟩

/-! ### Worker-pool batch operations (claim C3) -/

/-- Per-particle body of the worker script's `updateParticlesBatch`:
velocity integration with `forces[2i] || 0`, damping `0.99`, position
integration with `deltaTime * params.speed`.  (No boundary handling in
the worker.) -/
def updParticleWorker (deltaTime speed : ℝ) (p : Particle) (fx fy : ℝ) : Particle :=
  let p1 := { p with vx := p.vx + fx * deltaTime, vy := p.vy + fy * deltaTime }
  let p2 := { p1 with vx := p1.vx * 0.99, vy := p1.vy * 0.99 }
  { p2 with x := p2.x + p2.vx * deltaTime * speed, y := p2.y + p2.vy * deltaTime * speed }

/-- The worker script's `updateParticlesBatch` on one slice: loop over
the slice, reading the force pair at local indices `2i`, `2i+1`
(`forces[…] || 0` = default 0 when past the end). -/
def updateParticlesBatchW (deltaTime speed : ℝ) (particles : List Particle)
    (forces : List ℝ) : List Particle :=
  (List.range particles.length).map (fun i =>
    updParticleWorker deltaTime speed (particles.getD i default)
      (forces.getD (2 * i) 0) (forces.getD (2 * i + 1) 0))

/-- The worker script's `calculateForcesBatch` on one slice: a
`Float32Array(particles.length * 2)` filled at `2i`, `2i+1` with the
per-particle force (`calculateForcesBatchElem`). -/
def calculateForcesBatchW (scene : String) (audioInfluence width height now : ℝ)
    (particles : List Particle) : List ℝ :=
  particles.flatMap (fun p =>
    [(calculateForcesBatchElem scene audioInfluence width height now p).1,
     (calculateForcesBatchElem scene audioInfluence width height now p).2])

/-- Source `Math.ceil(particles.length / this.maxWorkers)` over naturals. -/
def wpBatchSize (n maxWorkers : ℕ) : ℕ := (n + maxWorkers - 1) / maxWorkers

/-- The slicing loop of `WorkerPool.calculateForces`:
`particles.slice(i, i + batchSize)` for `i = 0, bs, 2bs, …`. -/
def sliceParticles (bs : ℕ) : List Particle → List (List Particle)
  | [] => []
  | p :: ps =>
    if bs = 0 then []
    else (p :: ps).take bs :: sliceParticles bs ((p :: ps).drop bs)
termination_by l => l.length
decreasing_by simp; omega

/-- The slicing loop of `WorkerPool.updateParticles`: each iteration
takes `particles.slice(i, i + batchSize)` together with
`forces.slice(i * 2, (i + batchSize) * 2)`. -/
def sliceTasks (bs : ℕ) : List Particle → List ℝ → List (List Particle × List ℝ)
  | [], _ => []
  | p :: ps, forces =>
    if bs = 0 then []
    else ((p :: ps).take bs, forces.take (2 * bs)) ::
      sliceTasks bs ((p :: ps).drop bs) (forces.drop (2 * bs))
termination_by l _ => l.length
decreasing_by simp; omega

/-- Source `handleWorkerMessage` correlates a completion with its pending task
by `taskId` (`taskQueue.findIndex(task => task.id === taskId)`): the
first entry with the wanted key wins. -/
def lookupFirst {α : Type _} (taskId : ℕ) (arrivals : List (ℕ × α)) : Option α :=
  match arrivals.find? (fun a => decide (a.1 = taskId)) with
  | some a => some a.2
  | none => none

/-- Source `Promise.all` over the dispatched slice promises: the result array
is indexed by submission order (slice index), each entry resolved from
whichever completion carried that task's id — completions
(`arrivals`) may come in any order. -/
def promiseAll {α : Type _} (k : ℕ) (arrivals : List (ℕ × α)) : List (Option α) :=
  (List.range k).map (fun j => lookupFirst j arrivals)

/-- Source `find?` by a key returns the sought element when the keys are
distinct. -/
lemma find?_eq_some_of_key {α : Type _} (key : α → ℕ) (a : α) (l : List α)
    (hnd : (l.map key).Nodup) (ha : a ∈ l) :
    l.find? (fun x => decide (key x = key a)) = some a := by
  induction l with
  | nil => cases ha
  | cons b l ih =>
    simp only [List.map_cons, List.nodup_cons] at hnd
    rcases List.mem_cons.mp ha with rfl | hal
    · rw [List.find?_cons_of_pos _ (by simp)]
    · by_cases hkey : key b = key a
      · exact absurd (hkey ▸ List.mem_map_of_mem key hal) hnd.1
      · rw [List.find?_cons_of_neg _ (by simpa using hkey)]
        exact ih hnd.2 hal

/-- For any completion order that is a permutation of the canonical
"slice j finished with output j" list, `Promise.all` yields the outputs
in slice order. -/
lemma promiseAll_perm {α : Type _} (outs : List α) (arr : List (ℕ × α))
    (hperm : arr.Perm outs.enum) :
    promiseAll outs.length arr = outs.map some := by
  apply List.ext_getElem
  · simp [promiseAll]
  · intro j h1 h2
    simp only [promiseAll, List.getElem_map, List.getElem_range]
    have hj : j < outs.length := by simpa [promiseAll] using h1
    have hnd : (arr.map Prod.fst).Nodup :=
      ((hperm.map Prod.fst).nodup_iff).mpr (List.nodup_enum_map_fst outs)
    have hmem : (j, outs[j]) ∈ arr := by
      refine hperm.mem_iff.mpr ?_
      rw [List.mk_mem_enum_iff_getElem?]
      rw [List.getElem?_eq_getElem hj]
    have hfind : arr.find? (fun x => decide (x.1 = j)) = some (j, outs[j]) :=
      find?_eq_some_of_key Prod.fst (j, outs[j]) arr hnd hmem
    simp only [lookupFirst, hfind]

/-- Source `Float32Array.prototype.set(vals, offset)`: write `vals` into the
buffer starting at `offset`. -/
def writeAt : List ℝ → ℕ → List ℝ → List ℝ
  | buf, _, [] => buf
  | buf, off, v :: vs => writeAt (buf.set off v) (off + 1) vs

/-- The merge loop of `WorkerPool.calculateForces`: allocate
`Float32Array(total)` and copy each slice result at the running
offset. -/
def mergeForces (total : ℕ) (results : List (List ℝ)) : List ℝ :=
  (results.foldl (fun acc r => (writeAt acc.1 acc.2 r, acc.2 + r.length))
    (List.replicate total 0, 0)).1

lemma drop_append_add {α : Type _} (P D : List α) (m : ℕ) :
    (P ++ D).drop (P.length + m) = D.drop m := by
  rw [← List.drop_drop, List.drop_left]

lemma writeAt_spec (vals : List ℝ) : ∀ (buf : List ℝ) (off : ℕ),
    off + vals.length ≤ buf.length →
    writeAt buf off vals = buf.take off ++ vals ++ buf.drop (off + vals.length) := by
  induction vals with
  | nil =>
    intro buf off _
    simp [writeAt]
  | cons v vs ih =>
    intro buf off hlen
    simp only [List.length_cons] at hlen
    have hoff : off < buf.length := by omega
    have hTlen : (buf.take off).length = off := by
      simp [List.length_take]
      omega
    have hset : buf.set off v = buf.take off ++ v :: buf.drop (off + 1) :=
      List.set_eq_take_cons_drop v hoff
    show writeAt (buf.set off v) (off + 1) vs = _
    rw [hset, ih (buf.take off ++ v :: buf.drop (off + 1)) (off + 1)
      (by simp [hTlen]; omega)]
    have heq : buf.take off ++ v :: buf.drop (off + 1) =
        (buf.take off ++ [v]) ++ buf.drop (off + 1) := by simp
    have hPlen : (buf.take off ++ [v]).length = off + 1 := by simp [hTlen]
    rw [heq, List.take_left' hPlen,
      show off + 1 + vs.length = (buf.take off ++ [v]).length + vs.length from by
        rw [hPlen],
      drop_append_add, List.drop_drop,
      show off + 1 + vs.length = off + (vs.length + 1) from by omega]
    simp

lemma mergeFold_spec (results : List (List ℝ)) : ∀ (buf : List ℝ) (off : ℕ),
    off + (results.map List.length).sum ≤ buf.length →
    (results.foldl (fun acc r => (writeAt acc.1 acc.2 r, acc.2 + r.length))
      (buf, off)).1 =
      buf.take off ++ results.flatten ++
        buf.drop (off + (results.map List.length).sum) := by
  induction results with
  | nil =>
    intro buf off _
    simp
  | cons r rs ih =>
    intro buf off hlen
    simp only [List.map_cons, List.sum_cons] at hlen
    have hTlen : (buf.take off).length = off := by
      simp [List.length_take]
      omega
    have hw : writeAt buf off r = buf.take off ++ r ++ buf.drop (off + r.length) :=
      writeAt_spec r buf off (by omega)
    show (rs.foldl _ (writeAt buf off r, off + r.length)).1 = _
    rw [ih (writeAt buf off r) (off + r.length) (by rw [hw]; simp [hTlen]; omega), hw]
    have hPlen : (buf.take off ++ r).length = off + r.length := by simp [hTlen]
    rw [List.append_assoc (buf.take off) r, ← List.append_assoc (buf.take off) r,
      List.take_left' hPlen,
      show off + r.length + (rs.map List.length).sum =
        (buf.take off ++ r).length + (rs.map List.length).sum from by rw [hPlen],
      drop_append_add, List.drop_drop,
      show off + r.length + (rs.map List.length).sum =
        off + (r.length + (rs.map List.length).sum) from by omega]
    simp

/-- Merging slice results at accumulated offsets is concatenation in
slice order, whenever the total size matches. -/
lemma mergeForces_eq_flatten (results : List (List ℝ)) (total : ℕ)
    (htot : (results.map List.length).sum = total) :
    mergeForces total results = results.flatten := by
  rw [mergeForces, mergeFold_spec results (List.replicate total 0) 0
    (by simp [htot])]
  simp [htot]

lemma getD_take_of_lt {α : Type _} (l : List α) (n i : ℕ) (d : α) (h : i < n) :
    (l.take n).getD i d = l.getD i d := by
  rw [List.getD_eq_getElem?_getD, List.getD_eq_getElem?_getD,
    List.getElem?_take_of_lt h]

lemma getD_drop_add {α : Type _} (l : List α) (n i : ℕ) (d : α) :
    (l.drop n).getD i d = l.getD (n + i) d := by
  rw [List.getD_eq_getElem?_getD, List.getD_eq_getElem?_getD, List.getElem?_drop]

lemma calculateForcesBatchW_length (scene : String) (aI w h now : ℝ)
    (ps : List Particle) :
    (calculateForcesBatchW scene aI w h now ps).length = 2 * ps.length := by
  induction ps with
  | nil => simp [calculateForcesBatchW]
  | cons p tl ih =>
    simp only [calculateForcesBatchW, List.flatMap_cons] at ih ⊢
    simp [ih]
    omega

lemma calculateForcesBatchW_append (scene : String) (aI w h now : ℝ)
    (a b : List Particle) :
    calculateForcesBatchW scene aI w h now (a ++ b) =
      calculateForcesBatchW scene aI w h now a ++
        calculateForcesBatchW scene aI w h now b := by
  simp [calculateForcesBatchW]

lemma calculateForcesBatchW_getD (scene : String) (aI w h now : ℝ) :
    ∀ (ps : List Particle) (i : ℕ), i < ps.length →
    (calculateForcesBatchW scene aI w h now ps).getD (2 * i) 0 =
      (calculateForcesBatchElem scene aI w h now (ps.getD i default)).1 ∧
    (calculateForcesBatchW scene aI w h now ps).getD (2 * i + 1) 0 =
      (calculateForcesBatchElem scene aI w h now (ps.getD i default)).2 := by
  intro ps
  induction ps with
  | nil => intro i hi; cases hi
  | cons p tl ih =>
    intro i hi
    cases i with
    | zero =>
      simp [calculateForcesBatchW]
    | succ i =>
      have h2 : 2 * (i + 1) = 2 * i + 1 + 1 := by ring
      have h3 : 2 * (i + 1) + 1 = (2 * i + 1 + 1) + 1 := by ring
      simp only [calculateForcesBatchW, List.flatMap_cons, List.cons_append,
        List.nil_append, h2, h3, List.getD_cons_succ, List.getD_cons_zero]
      simp only [calculateForcesBatchW] at ih
      exact ih i (by simpa using hi)

/-- Chunking a list into contiguous slices and flattening gives the
list back (`bs ≥ 1`). -/
lemma sliceParticles_flatten (bs : ℕ) (hbs : 1 ≤ bs) :
    ∀ (n : ℕ) (ps : List Particle), ps.length ≤ n →
      (sliceParticles bs ps).flatten = ps := by
  intro n
  induction n with
  | zero =>
    intro ps hps
    have : ps = [] := List.length_eq_zero.mp (by omega)
    subst this
    simp [sliceParticles]
  | succ n ih =>
    intro ps hps
    cases ps with
    | nil => simp [sliceParticles]
    | cons p tl =>
      rw [sliceParticles, if_neg (by omega)]
      rw [List.flatten_cons, ih ((p :: tl).drop bs) (by
        simp only [List.length_drop, List.length_cons]
        simp only [List.length_cons] at hps
        omega)]
      exact List.take_append_drop bs (p :: tl)

/-- Applying the worker force kernel slice-by-slice and flattening in
slice order gives the kernel applied to the whole input. -/
lemma sliceParticles_map_forces_flatten (scene : String) (aI w h now : ℝ)
    (bs : ℕ) (hbs : 1 ≤ bs) :
    ∀ (n : ℕ) (ps : List Particle), ps.length ≤ n →
      ((sliceParticles bs ps).map
        (calculateForcesBatchW scene aI w h now)).flatten =
        calculateForcesBatchW scene aI w h now ps := by
  intro n
  induction n with
  | zero =>
    intro ps hps
    have : ps = [] := List.length_eq_zero.mp (by omega)
    subst this
    simp [sliceParticles, calculateForcesBatchW]
  | succ n ih =>
    intro ps hps
    cases ps with
    | nil => simp [sliceParticles, calculateForcesBatchW]
    | cons p tl =>
      rw [sliceParticles, if_neg (by omega)]
      rw [List.map_cons, List.flatten_cons, ih ((p :: tl).drop bs) (by
        simp only [List.length_drop, List.length_cons]
        simp only [List.length_cons] at hps
        omega),
        ← calculateForcesBatchW_append]
      rw [List.take_append_drop]

lemma updateParticlesBatchW_length (dtime speed : ℝ) (ps : List Particle)
    (fs : List ℝ) :
    (updateParticlesBatchW dtime speed ps fs).length = ps.length := by
  simp [updateParticlesBatchW]

lemma updateParticlesBatchW_getElem (dtime speed : ℝ) (ps : List Particle)
    (fs : List ℝ) (i : ℕ) (h : i < (updateParticlesBatchW dtime speed ps fs).length) :
    (updateParticlesBatchW dtime speed ps fs)[i] =
      updParticleWorker dtime speed (ps.getD i default)
        (fs.getD (2 * i) 0) (fs.getD (2 * i + 1) 0) := by
  simp [updateParticlesBatchW]

/-- Slicing both the particle list and (at double stride) the force
buffer, running the worker body per slice, and concatenating is the same
as running it on the whole input: local force indices `2j, 2j+1` line up
with the slice offset. -/
lemma updateParticlesBatchW_split (dtime speed : ℝ) (bs : ℕ)
    (ps : List Particle) (fs : List ℝ) :
    updateParticlesBatchW dtime speed ps fs =
      updateParticlesBatchW dtime speed (ps.take bs) (fs.take (2 * bs)) ++
        updateParticlesBatchW dtime speed (ps.drop bs) (fs.drop (2 * bs)) := by
  have hlenpre : (updateParticlesBatchW dtime speed (ps.take bs)
      (fs.take (2 * bs))).length = min bs ps.length := by
    rw [updateParticlesBatchW_length, List.length_take]
  have hlensuf : (updateParticlesBatchW dtime speed (ps.drop bs)
      (fs.drop (2 * bs))).length = ps.length - bs := by
    rw [updateParticlesBatchW_length, List.length_drop]
  apply List.ext_getElem
  · rw [updateParticlesBatchW_length, List.length_append, hlenpre, hlensuf]
    omega
  · intro i h1 h2
    have hips : i < ps.length := by
      rw [updateParticlesBatchW_length] at h1
      exact h1
    rw [updateParticlesBatchW_getElem dtime speed ps fs i h1]
    rcases lt_or_le i ((updateParticlesBatchW dtime speed (ps.take bs)
        (fs.take (2 * bs))).length) with hcase | hcase
    · rw [List.getElem_append_left hcase,
        updateParticlesBatchW_getElem dtime speed _ _ i hcase]
      have hib : i < bs := by
        rw [hlenpre] at hcase
        omega
      rw [getD_take_of_lt ps bs i default hib,
        getD_take_of_lt fs (2 * bs) (2 * i) 0 (by omega),
        getD_take_of_lt fs (2 * bs) (2 * i + 1) 0 (by omega)]
    · have hge : bs ≤ i := by
        rw [hlenpre] at hcase
        omega
      rw [List.getElem_append_right hcase]
      rw [updateParticlesBatchW_getElem dtime speed (ps.drop bs) (fs.drop (2 * bs)) _
        (by rw [hlensuf, hlenpre]; omega)]
      rw [hlenpre, show min bs ps.length = bs from by omega]
      rw [getD_drop_add ps bs (i - bs) default,
        getD_drop_add fs (2 * bs) (2 * (i - bs)) 0,
        getD_drop_add fs (2 * bs) (2 * (i - bs) + 1) 0,
        show bs + (i - bs) = i from by omega,
        show 2 * bs + 2 * (i - bs) = 2 * i from by omega,
        show 2 * bs + (2 * (i - bs) + 1) = 2 * i + 1 from by omega]

/-- Running the worker update slice-by-slice (particles with their
matching force window) and flattening in slice order equals the whole
batch. -/
lemma sliceTasks_map_update_flatten (dtime speed : ℝ) (bs : ℕ) (hbs : 1 ≤ bs) :
    ∀ (n : ℕ) (ps : List Particle) (fs : List ℝ), ps.length ≤ n →
      ((sliceTasks bs ps fs).map
        (fun t => updateParticlesBatchW dtime speed t.1 t.2)).flatten =
        updateParticlesBatchW dtime speed ps fs := by
  intro n
  induction n with
  | zero =>
    intro ps fs hps
    have : ps = [] := List.length_eq_zero.mp (by omega)
    subst this
    simp [sliceTasks, updateParticlesBatchW]
  | succ n ih =>
    intro ps fs hps
    cases ps with
    | nil => simp [sliceTasks, updateParticlesBatchW]
    | cons p tl =>
      rw [sliceTasks, if_neg (by omega)]
      rw [List.map_cons, List.flatten_cons,
        ih ((p :: tl).drop bs) (fs.drop (2 * bs)) (by
          simp only [List.length_drop, List.length_cons]
          simp only [List.length_cons] at hps
          omega)]
      exact (updateParticlesBatchW_split dtime speed bs (p :: tl) fs).symm

/-- Source `WorkerPool.calculateForces`: slice into `ceil(N/maxWorkers)`-sized
contiguous slices, dispatch one task per slice, await all of them
(`Promise.all` — modelled by `promiseAll` over an arbitrary completion
order `arrivals`), and merge the per-slice `Float32Array`s at running
offsets into a `Float32Array(2N)`. -/
def wpCalculateForces (scene : String) (audioInfluence width height now : ℝ)
    (particles : List Particle) (maxWorkers : ℕ)
    (arrivals : List (ℕ × List ℝ)) : List ℝ :=
  let bs := wpBatchSize particles.length maxWorkers
  let slices := sliceParticles bs particles
  let results := (promiseAll slices.length arrivals).map (fun r => r.getD [])
  mergeForces (2 * particles.length) results

/-- Source `WorkerPool.updateParticles`: slice particles and the matching force
windows, dispatch one task per slice, await all, and `results.flat()`. -/
def wpUpdateParticles (deltaTime speed : ℝ) (particles : List Particle)
    (forces : List ℝ) (maxWorkers : ℕ)
    (arrivals : List (ℕ × List Particle)) : List Particle :=
  let bs := wpBatchSize particles.length maxWorkers
  let tasks := sliceTasks bs particles forces
  let results := (promiseAll tasks.length arrivals).map (fun r => r.getD [])
  results.flatten

/-- The canonical completion list for `calculateForces`: slice `j`
finishes carrying the worker output for slice `j`. -/
def forceArrivalsCanonical (scene : String) (aI w h now : ℝ)
    (particles : List Particle) (maxWorkers : ℕ) : List (ℕ × List ℝ) :=
  ((sliceParticles (wpBatchSize particles.length maxWorkers) particles).map
    (calculateForcesBatchW scene aI w h now)).enum

/-- The canonical completion list for `updateParticles`. -/
def updateArrivalsCanonical (deltaTime speed : ℝ) (particles : List Particle)
    (forces : List ℝ) (maxWorkers : ℕ) : List (ℕ × List Particle) :=
  ((sliceTasks (wpBatchSize particles.length maxWorkers) particles forces).map
    (fun t => updateParticlesBatchW deltaTime speed t.1 t.2)).enum

/-- C3: for any completion order (any permutation of the canonical
slice-results), the worker-pool batch operations `calculateForces` and
`updateParticles` split the input into contiguous `ceil(N/maxWorkers)`
slices, join all slices, and merge so that the result has length `2N`
(resp. `N`) and entry `i` is the worker output for input entry `i`. -/
theorem workerPool_split_join (scene : String) (aI w h now deltaTime speed : ℝ)
    (particles : List Particle) (forces : List ℝ) (maxWorkers : ℕ)
    (hW : 1 ≤ maxWorkers)
    (arrF : List (ℕ × List ℝ))
    (hF : arrF.Perm (forceArrivalsCanonical scene aI w h now particles maxWorkers))
    (arrU : List (ℕ × List Particle))
    (hU : arrU.Perm (updateArrivalsCanonical deltaTime speed particles forces maxWorkers)) :
    (wpCalculateForces scene aI w h now particles maxWorkers arrF).length =
      2 * particles.length ∧
    (∀ i, i < particles.length →
      (wpCalculateForces scene aI w h now particles maxWorkers arrF).getD (2 * i) 0 =
        (calculateForcesBatchElem scene aI w h now (particles.getD i default)).1 ∧
      (wpCalculateForces scene aI w h now particles maxWorkers arrF).getD (2 * i + 1) 0 =
        (calculateForcesBatchElem scene aI w h now (particles.getD i default)).2) ∧
    (wpUpdateParticles deltaTime speed particles forces maxWorkers arrU).length =
      particles.length ∧
    (∀ i, i < particles.length →
      (wpUpdateParticles deltaTime speed particles forces maxWorkers arrU).getD i default =
        updParticleWorker deltaTime speed (particles.getD i default)
          (forces.getD (2 * i) 0) (forces.getD (2 * i + 1) 0)) := by
  have hbs : particles ≠ [] → 1 ≤ wpBatchSize particles.length maxWorkers := by
    intro hne
    have h1 : 1 ≤ particles.length := List.length_pos.mpr hne
    rw [wpBatchSize, Nat.one_le_div_iff (by omega)]
    omega
  have hkey1 : wpCalculateForces scene aI w h now particles maxWorkers arrF =
      calculateForcesBatchW scene aI w h now particles := by
    by_cases hemp : particles = []
    · subst hemp
      simp [wpCalculateForces, sliceParticles, promiseAll, mergeForces,
        calculateForcesBatchW]
    · set outs := (sliceParticles (wpBatchSize particles.length maxWorkers)
        particles).map (calculateForcesBatchW scene aI w h now) with houts
      show mergeForces (2 * particles.length)
        ((promiseAll (sliceParticles (wpBatchSize particles.length maxWorkers)
          particles).length arrF).map (fun r => r.getD [])) = _
      rw [show (sliceParticles (wpBatchSize particles.length maxWorkers)
          particles).length = outs.length from by rw [houts, List.length_map]]
      rw [promiseAll_perm outs arrF hF]
      rw [show (outs.map some).map (fun r => r.getD []) = outs from by
        rw [List.map_map]
        simp [Function.comp_def]]
      have hflat : outs.flatten = calculateForcesBatchW scene aI w h now particles :=
        sliceParticles_map_forces_flatten scene aI w h now _ (hbs hemp)
          particles.length particles le_rfl
      rw [mergeForces_eq_flatten outs (2 * particles.length) (by
        rw [← List.length_flatten, hflat, calculateForcesBatchW_length])]
      exact hflat
  have hkey2 : wpUpdateParticles deltaTime speed particles forces maxWorkers arrU =
      updateParticlesBatchW deltaTime speed particles forces := by
    by_cases hemp : particles = []
    · subst hemp
      simp [wpUpdateParticles, sliceTasks, promiseAll, updateParticlesBatchW]
    · set outs := (sliceTasks (wpBatchSize particles.length maxWorkers)
        particles forces).map
          (fun t => updateParticlesBatchW deltaTime speed t.1 t.2) with houts
      show ((promiseAll (sliceTasks (wpBatchSize particles.length maxWorkers)
          particles forces).length arrU).map (fun r => r.getD [])).flatten = _
      rw [show (sliceTasks (wpBatchSize particles.length maxWorkers)
          particles forces).length = outs.length from by rw [houts, List.length_map]]
      rw [promiseAll_perm outs arrU hU]
      rw [show (outs.map some).map (fun r => r.getD []) = outs from by
        rw [List.map_map]
        simp [Function.comp_def]]
      exact sliceTasks_map_update_flatten deltaTime speed _ (hbs hemp)
        particles.length particles forces le_rfl
  refine ⟨?_, ?_, ?_, ?_⟩
  · rw [hkey1, calculateForcesBatchW_length]
  · intro i hi
    rw [hkey1]
    exact calculateForcesBatchW_getD scene aI w h now particles i hi
  · rw [hkey2, updateParticlesBatchW_length]
  · intro i hi
    rw [hkey2]
    have hl : i < (updateParticlesBatchW deltaTime speed particles forces).length := by
      rw [updateParticlesBatchW_length]
      exact hi
    rw [getD_eq_getElem _ i default hl,
      updateParticlesBatchW_getElem deltaTime speed particles forces i hl]

/-- Concrete three-particle input for the worker-pool witness. -/
def wpPs : List Particle :=
  [⟨1, 2, 0, 0, 1, 0, 1⟩, ⟨3, 4, 0, 0, 1, 0, 1⟩, ⟨5, 6, 0, 0, 1, 0, 1⟩]

/-- Concrete force buffer for the worker-pool witness. -/
def wpFs : List ℝ := [1, 2, 3, 4, 5, 6]

/-- C3 witness: with three particles, two workers (slices `[p0, p1]`,
`[p2]`), and the completions arriving in reverse slice order, the merged
results still have the claimed lengths. -/
theorem workerPool_split_join_witness :
    (wpCalculateForces "default" 0 100 100 0 wpPs 2
      ((forceArrivalsCanonical "default" 0 100 100 0 wpPs 2).reverse)).length =
      2 * wpPs.length ∧
    (wpUpdateParticles 0.016 1 wpPs wpFs 2
      ((updateArrivalsCanonical 0.016 1 wpPs wpFs 2).reverse)).length =
      wpPs.length := by
  have h := workerPool_split_join "default" 0 100 100 0 0.016 1 wpPs wpFs 2
    (by norm_num) _ (List.reverse_perm _) _ (List.reverse_perm _)
  exact ⟨h.1, h.2.2.1⟩

/-! ### Worker fault isolation (claim C4) -/

/-- A pending task of the pool: its unique id, its message type, and
the worker it is assigned to (`none` while queued-but-unassigned;
`task.worker` is set by `processNextTask`). -/
structure WPTask where
  id : ℕ
  ttype : String
  worker : Option ℕ
  deriving DecidableEq

/-- The scheduler state the claims touch: the task queue (containing
both queued and in-flight tasks, as in the source) and the idle worker
list (`availableWorkers`). -/
structure WPState where
  taskQueue : List WPTask
  availableWorkers : List ℕ
  deriving DecidableEq

/-- The first half of `processNextTask`'s body: assign the worker to the
first task without one (`taskQueue.find(t => !t.worker)` followed by
`task.worker = worker`). -/
def assignFirstUnassigned (w : ℕ) : List WPTask → List WPTask
  | [] => []
  | t :: ts =>
    if t.worker = none then { t with worker := some w } :: ts
    else t :: assignFirstUnassigned w ts

/-- Source `WorkerPool.processNextTask`: do nothing when the queue or the idle
set is empty, otherwise pop a worker (`availableWorkers.pop()` takes the
last element) and give it the first unassigned task — or push the worker
back if every queued task is already assigned. -/
def processNextTask (s : WPState) : WPState :=
  match s.taskQueue, s.availableWorkers.getLast? with
  | [], _ => s
  | _, none => s
  | _ :: _, some w =>
    if s.taskQueue.any (fun t => decide (t.worker = none)) then
      ⟨assignFirstUnassigned w s.taskQueue, s.availableWorkers.dropLast⟩
    else
      ⟨s.taskQueue, s.availableWorkers.dropLast ++ [w]⟩

/-- Source `WorkerPool.handleWorkerError(worker, error)`: reject exactly the
tasks whose `task.worker === worker` (returned as the second component),
remove them from the queue, and return the worker to the idle set (if
not already there).  No other state is touched. -/
def handleWorkerError (w : ℕ) (s : WPState) : WPState × List WPTask :=
  let rejected := s.taskQueue.filter (fun t => decide (t.worker = some w))
  let newQueue := s.taskQueue.filter (fun t => decide (¬ t.worker = some w))
  let avail := if w ∈ s.availableWorkers then s.availableWorkers
               else s.availableWorkers ++ [w]
  (⟨newQueue, avail⟩, rejected)

/-- Source `WorkerPool.handleWorkerMessage` for a completion from `worker`
with id `taskId`: resolve and splice out the first task with that id,
return the worker to the idle set, then `processNextTask`.  The second
component is the resolved task (`none` when no task matches). -/
def handleWorkerMessage (worker taskId : ℕ) (s : WPState) : WPState × Option WPTask :=
  let resolved := s.taskQueue.find? (fun t => decide (t.id = taskId))
  let queue1 := s.taskQueue.eraseP (fun t => decide (t.id = taskId))
  let avail := if worker ∈ s.availableWorkers then s.availableWorkers
               else s.availableWorkers ++ [worker]
  (processNextTask ⟨queue1, avail⟩, resolved)

/-- C4: a worker error rejects exactly the tasks assigned to that
worker, removes exactly those from the queue (preserving the order of
the rest), returns the faulting worker to the idle set, and every other
task — assigned elsewhere or unassigned — stays in the queue and can
still be resolved by a later completion carrying its id. -/
theorem worker_error_isolation (w : ℕ) (s : WPState)
    (hids : (s.taskQueue.map WPTask.id).Nodup) :
    (∀ t, t ∈ (handleWorkerError w s).2 ↔
      t ∈ s.taskQueue ∧ t.worker = some w) ∧
    (∀ t, t ∈ (handleWorkerError w s).1.taskQueue ↔
      t ∈ s.taskQueue ∧ t.worker ≠ some w) ∧
    (handleWorkerError w s).1.taskQueue.Sublist s.taskQueue ∧
    w ∈ (handleWorkerError w s).1.availableWorkers ∧
    (∀ t, t ∈ s.taskQueue → t.worker ≠ some w → ∀ worker2,
      (handleWorkerMessage worker2 t.id (handleWorkerError w s).1).2 = some t) := by
  refine ⟨?_, ?_, ?_, ?_, ?_⟩
  · intro t
    show t ∈ s.taskQueue.filter (fun t => decide (t.worker = some w)) ↔ _
    rw [List.mem_filter]
    simp
  · intro t
    show t ∈ s.taskQueue.filter (fun t => decide (¬ t.worker = some w)) ↔ _
    rw [List.mem_filter]
    simp
  · exact List.filter_sublist _
  · show w ∈ (if w ∈ s.availableWorkers then s.availableWorkers
      else s.availableWorkers ++ [w])
    split_ifs with hmem
    · exact hmem
    · simp
  · intro t ht htw worker2
    have hqueue : t ∈ (handleWorkerError w s).1.taskQueue := by
      show t ∈ s.taskQueue.filter (fun t => decide (¬ t.worker = some w))
      rw [List.mem_filter]
      simpa using ⟨ht, htw⟩
    have hnd : ((handleWorkerError w s).1.taskQueue.map WPTask.id).Nodup := by
      have hsub : ((handleWorkerError w s).1.taskQueue.map WPTask.id).Sublist
          (s.taskQueue.map WPTask.id) :=
        (List.filter_sublist _).map WPTask.id
      exact hids.sublist hsub
    show (handleWorkerError w s).1.taskQueue.find?
      (fun u => decide (u.id = t.id)) = some t
    exact find?_eq_some_of_key WPTask.id t _ hnd hqueue

/-- Concrete pool state for the C4 witness: task 1 assigned to worker 0,
task 2 assigned to worker 5, task 3 unassigned. -/
def wpStateW : WPState :=
  ⟨[⟨1, "calculateForces", some 0⟩, ⟨2, "calculateForces", some 5⟩,
    ⟨3, "updateParticles", none⟩], []⟩

/-- C4 witness: when worker 0 errors, its task is rejected, the task
assigned to worker 5 and the unassigned task survive, worker 0 returns
to the idle set, and worker 5's task can still resolve. -/
theorem worker_error_isolation_witness :
    (⟨1, "calculateForces", some 0⟩ : WPTask) ∈ (handleWorkerError 0 wpStateW).2 ∧
    (⟨2, "calculateForces", some 5⟩ : WPTask) ∈
      (handleWorkerError 0 wpStateW).1.taskQueue ∧
    (⟨3, "updateParticles", none⟩ : WPTask) ∈
      (handleWorkerError 0 wpStateW).1.taskQueue ∧
    0 ∈ (handleWorkerError 0 wpStateW).1.availableWorkers ∧
    (handleWorkerMessage 5 2 (handleWorkerError 0 wpStateW).1).2 =
      some ⟨2, "calculateForces", some 5⟩ := by
  have h := worker_error_isolation 0 wpStateW (by decide)
  refine ⟨(h.1 _).mpr ⟨by decide, rfl⟩, (h.2.1 _).mpr ⟨by decide, by decide⟩,
    (h.2.1 _).mpr ⟨by decide, by decide⟩, h.2.2.2.1, ?_⟩
  exact h.2.2.2.2 ⟨2, "calculateForces", some 5⟩ (by decide) (by decide) 5

/-! ### Adaptive quality controller (claim C5) -/

/-- The quality ladder of `OptimizationManager` (the order used by
`decreaseQuality`/`increaseQuality`). -/
inductive QualityLevel where
  | low
  | medium
  | high
  | ultra
  deriving DecidableEq

/-- A quality preset (`applyQualitySettings`'s table rows). -/
structure QualitySettings where
  particles : ℕ
  resolution : ℚ
  effects : Bool
  shadows : Bool
  antialiasing : Bool
  deriving DecidableEq

/-- The fields of `OptimizationManager` the claims touch. -/
structure OptManager where
  adaptiveQuality : Bool
  performanceHistory : List ℚ
  currentQualityLevel : QualityLevel
  qualitySettings : QualitySettings
  deriving DecidableEq

/-- Source `this.maxHistoryLength = 60`. -/
def maxHistoryLength : ℕ := 60

/-- Source `optimizationThresholds.fpsMin = 45`. -/
def fpsMin : ℚ := 45

/-- Source `optimizationThresholds.fpsMax = 120`. -/
def fpsMax : ℚ := 120

/-- The settings table of `applyQualitySettings`. -/
def qualityPreset : QualityLevel → QualitySettings
  | .low => ⟨300, 1 / 2, false, false, false⟩
  | .medium => ⟨800, 3 / 4, true, false, false⟩
  | .high => ⟨1500, 1, true, true, false⟩
  | .ultra => ⟨3000, 1, true, true, true⟩

/-- Source `applyQualitySettings(quality)`: the spread
`{...qualitySettings, ...settings[quality]}` overwrites all five fields,
so it equals the preset.  (The `qualityChanged` DOM event carries no
modelled state.) -/
def applyQualitySettings (quality : QualityLevel) (m : OptManager) : OptManager :=
  { m with qualitySettings := qualityPreset quality }

/-- Source `decreaseQuality`: step down one rung of
`['ultra', 'high', 'medium', 'low']` (no change at `low`, where
`currentIndex` is the last). -/
def decreaseQuality (m : OptManager) : OptManager :=
  match m.currentQualityLevel with
  | .ultra => applyQualitySettings .high { m with currentQualityLevel := .high }
  | .high => applyQualitySettings .medium { m with currentQualityLevel := .medium }
  | .medium => applyQualitySettings .low { m with currentQualityLevel := .low }
  | .low => m

/-- Source `increaseQuality`: step up one rung of
`['low', 'medium', 'high', 'ultra']` (no change at `ultra`). -/
def increaseQuality (m : OptManager) : OptManager :=
  match m.currentQualityLevel with
  | .low => applyQualitySettings .medium { m with currentQualityLevel := .medium }
  | .medium => applyQualitySettings .high { m with currentQualityLevel := .high }
  | .high => applyQualitySettings .ultra { m with currentQualityLevel := .ultra }
  | .ultra => m

/-- The `push`-then-`shift` pair of `adjustQuality`: append the sample,
then drop the oldest while the window exceeds `maxHistoryLength`. -/
def slidingWindow (hist : List ℚ) : List ℚ :=
  if hist.length > maxHistoryLength then hist.tail else hist

/-- Source `OptimizationManager.adjustQuality(currentFPS, targetFPS)`: an early
return when adaptive quality is disabled; otherwise push the sample,
shift beyond 60, average the window, and step the tier down below
`fpsMin` / up above `fpsMax` (never past `ultra`).  `targetFPS` is
accepted and unused, as in the source. -/
def adjustQuality (currentFPS targetFPS : ℚ) (m : OptManager) : OptManager :=
  if !m.adaptiveQuality then m
  else
    let hist2 := slidingWindow (m.performanceHistory ++ [currentFPS])
    let m1 := { m with performanceHistory := hist2 }
    let avgFPS := hist2.sum / (hist2.length : ℚ)
    if avgFPS < fpsMin then decreaseQuality m1
    else if avgFPS > fpsMax ∧ m1.currentQualityLevel ≠ QualityLevel.ultra then
      increaseQuality m1
    else m1

/-- Position on the ladder Low–Medium–High–Ultra. -/
def tierIdx : QualityLevel → ℕ
  | .low => 0
  | .medium => 1
  | .high => 2
  | .ultra => 3

/-- One step down the ladder (identity at Low). -/
def stepDown : QualityLevel → QualityLevel
  | .ultra => .high
  | .high => .medium
  | .medium => .low
  | .low => .low

/-- One step up the ladder (identity at Ultra). -/
def stepUp : QualityLevel → QualityLevel
  | .low => .medium
  | .medium => .high
  | .high => .ultra
  | .ultra => .ultra

lemma decreaseQuality_history (m : OptManager) :
    (decreaseQuality m).performanceHistory = m.performanceHistory := by
  cases hl : m.currentQualityLevel <;>
    simp [decreaseQuality, hl, applyQualitySettings]

lemma increaseQuality_history (m : OptManager) :
    (increaseQuality m).performanceHistory = m.performanceHistory := by
  cases hl : m.currentQualityLevel <;>
    simp [increaseQuality, hl, applyQualitySettings]

lemma decreaseQuality_level (m : OptManager) :
    (decreaseQuality m).currentQualityLevel = stepDown m.currentQualityLevel := by
  cases hl : m.currentQualityLevel <;>
    simp [decreaseQuality, hl, applyQualitySettings, stepDown]

lemma increaseQuality_level (m : OptManager) :
    (increaseQuality m).currentQualityLevel = stepUp m.currentQualityLevel := by
  cases hl : m.currentQualityLevel <;>
    simp [increaseQuality, hl, applyQualitySettings, stepUp]

/-- The window contents after one `adjustQuality` call: the appended
history keeping only the 60 most recent samples. -/
def windowAfter (m : OptManager) (fps : ℚ) : List ℚ :=
  (m.performanceHistory ++ [fps]).drop ((m.performanceHistory ++ [fps]).length - 60)

/-- C5: with adaptive quality enabled (the only mode in which the app
calls `adjustQuality`) and a window currently holding at most 60
samples, each call appends the sample keeping only the 60 most recent,
averages the window, and moves the tier exactly one ladder step down
when the average is below 45, exactly one step up when it is above 120
(identity at Ultra), and otherwise not at all — the tier index never
changes by more than one. -/
theorem adjustQuality_single_step (m : OptManager) (fps target : ℚ)
    (hA : m.adaptiveQuality = true)
    (hlen : m.performanceHistory.length ≤ 60) :
    (adjustQuality fps target m).performanceHistory = windowAfter m fps ∧
    (adjustQuality fps target m).performanceHistory.length ≤ 60 ∧
    ((windowAfter m fps).sum / ((windowAfter m fps).length : ℚ) < 45 →
      (adjustQuality fps target m).currentQualityLevel =
        stepDown m.currentQualityLevel) ∧
    (45 ≤ (windowAfter m fps).sum / ((windowAfter m fps).length : ℚ) →
      (windowAfter m fps).sum / ((windowAfter m fps).length : ℚ) ≤ 120 →
      (adjustQuality fps target m).currentQualityLevel = m.currentQualityLevel) ∧
    (120 < (windowAfter m fps).sum / ((windowAfter m fps).length : ℚ) →
      (adjustQuality fps target m).currentQualityLevel =
        stepUp m.currentQualityLevel) ∧
    tierIdx (adjustQuality fps target m).currentQualityLevel ≤
      tierIdx m.currentQualityLevel + 1 ∧
    tierIdx m.currentQualityLevel ≤
      tierIdx (adjustQuality fps target m).currentQualityLevel + 1 := by
  have hlist : (m.performanceHistory ++ [fps]).length =
      m.performanceHistory.length + 1 := by simp
  have hwin : slidingWindow (m.performanceHistory ++ [fps]) = windowAfter m fps := by
    rw [slidingWindow, windowAfter, maxHistoryLength]
    by_cases hl : (m.performanceHistory ++ [fps]).length > 60
    · rw [if_pos hl,
        show (m.performanceHistory ++ [fps]).length - 60 = 1 from by
          rw [hlist] at hl ⊢
          omega,
        List.drop_one]
    · rw [if_neg hl,
        show (m.performanceHistory ++ [fps]).length - 60 = 0 from by
          rw [hlist] at hl ⊢
          omega,
        List.drop_zero]
  have hne : ¬((!m.adaptiveQuality) = true) := by
    rw [hA]
    simp
  have hchar : (adjustQuality fps target m).performanceHistory = windowAfter m fps ∧
      (adjustQuality fps target m).currentQualityLevel =
        (if (windowAfter m fps).sum / ((windowAfter m fps).length : ℚ) < 45
         then stepDown m.currentQualityLevel
         else if 120 < (windowAfter m fps).sum / ((windowAfter m fps).length : ℚ)
         then stepUp m.currentQualityLevel
         else m.currentQualityLevel) := by
    unfold adjustQuality
    rw [if_neg hne]
    simp only [hwin, fpsMin, fpsMax]
    rcases lt_or_le ((windowAfter m fps).sum / ((windowAfter m fps).length : ℚ)) 45
      with hlt | hge
    · rw [if_pos hlt, if_pos hlt]
      exact ⟨decreaseQuality_history _, decreaseQuality_level _⟩
    · rw [if_neg (not_lt.mpr hge), if_neg (not_lt.mpr hge)]
      rcases lt_or_le (120 : ℚ)
        ((windowAfter m fps).sum / ((windowAfter m fps).length : ℚ)) with hgt | hle
      · rw [if_pos hgt]
        by_cases hu : m.currentQualityLevel = QualityLevel.ultra
        · rw [if_neg (by simp [hu])]
          refine ⟨rfl, ?_⟩
          rw [hu]
          rfl
        · rw [if_pos ⟨hgt, by simpa using hu⟩]
          exact ⟨increaseQuality_history _, increaseQuality_level _⟩
      · rw [if_neg (not_lt.mpr hle), if_neg (by
          rintro ⟨hcon, -⟩
          exact absurd hcon (not_lt.mpr hle))]
        exact ⟨rfl, rfl⟩
  obtain ⟨hH, hL⟩ := hchar
  refine ⟨hH, ?_, ?_, ?_, ?_, ?_, ?_⟩
  · rw [hH, windowAfter, List.length_drop, hlist]
    omega
  · intro hlt
    rw [hL, if_pos hlt]
  · intro h1 h2
    rw [hL, if_neg (not_lt.mpr h1), if_neg (not_lt.mpr h2)]
  · intro h3
    rw [hL, if_neg (not_lt.mpr (by linarith)), if_pos h3]
  · rw [hL]
    split_ifs <;> cases m.currentQualityLevel <;> simp [tierIdx, stepDown, stepUp]
  · rw [hL]
    split_ifs <;> cases m.currentQualityLevel <;> simp [tierIdx, stepDown, stepUp]

/-- Concrete manager for the C5 witness. -/
def optW : OptManager :=
  ⟨true, [], QualityLevel.medium, qualityPreset QualityLevel.medium⟩

/-- C5 witness: a single 30-fps sample on an empty window steps Medium
down to Low and leaves a one-sample window. -/
theorem adjustQuality_single_step_witness :
    (adjustQuality 30 120 optW).performanceHistory = windowAfter optW 30 ∧
    (adjustQuality 30 120 optW).currentQualityLevel =
      stepDown optW.currentQualityLevel := by
  have h := adjustQuality_single_step optW 30 120 rfl (by decide)
  exact ⟨h.1, h.2.2.1 (by norm_num [windowAfter, optW])⟩
